import Mathlib

/-!
Verification development for the grid packing / collision engine of
`src/utils/gridHelpers.ts` (a widget dashboard layout engine).

The TypeScript source is shallowly embedded: every exported function of the
source file that the verified properties touch is translated here with the same
name, the same control flow, and JavaScript number arithmetic modelled on `Int`
(all quantities involved are integers in the source).

The occupancy grid (`boolean[][]` in the source) is modelled as a function
`Int → Int → Bool` together with its `cols`/`rows` fields.  Writes mirror the
source's loops: every marking loop in the source clips columns at `cols` and is
guarded by `grid[row]` being defined (i.e. `0 ≤ row < rows`); negative column
indices would become non-index properties of the JS row array, which no read
path ever consults (all reads are at `0 ≤ row < rows`, `0 ≤ col < cols`), so
the model guards writes with `0 ≤ col` as well.
-/

namespace GridHelpers

/-- `GridZone` of the source: a position and size in cell coordinates. -/
structure GridZone where
  x : Int
  y : Int
  w : Int
  h : Int
deriving DecidableEq, Repr

/-- `GridItemLayout`: one widget's layout entry (`i` is the widget id). -/
structure GridItemLayout where
  i : String
  x : Int
  y : Int
  w : Int
  h : Int
deriving DecidableEq, Repr

/-- The boolean cell matrix, as a total function (see module comment). -/
def Occ : Type := Int → Int → Bool

/-- `OccupancyGrid` of the source. -/
structure OccupancyGrid where
  grid : Occ
  cols : Int
  rows : Int

/-- The integers `a, a+1, …, b-1`: the index sequence of a JS loop
`for (let i = a; i < b; i++)`. -/
def intRange (a b : Int) : List Int :=
  (List.range (b - a).toNat).map fun (k : Nat) => a + (k : Int)

/-- One rectangle-marking loop of the source
(`for row … Math.min(z.y+z.h, rows); for col … Math.min(z.x+z.w, cols)`
with the `grid[row]` existence guard): sets every covered cell to `v`. -/
def setRegion (rows cols : Int) (v : Bool) (z : GridZone) (g : Occ) : Occ :=
  fun r c =>
    if z.y ≤ r ∧ 0 ≤ r ∧ r < min (z.y + z.h) rows ∧
       z.x ≤ c ∧ 0 ≤ c ∧ c < min (z.x + z.w) cols then v else g r c

/-- `createOccupancyGrid(layouts, cols, maxRows, excludeId?)`. -/
def createOccupancyGrid (layouts : List GridItemLayout) (cols maxRows : Int)
    (excludeId : Option String) : OccupancyGrid :=
  { grid := layouts.foldl
      (fun g l =>
        if excludeId = some l.i then g
        else setRegion maxRows cols true ⟨l.x, l.y, l.w, l.h⟩ g)
      (fun _ _ => false)
    cols := cols
    rows := maxRows }

/-- `canFitAt(occupancy, x, y, w, h)`. -/
def canFitAt (occupancy : OccupancyGrid) (x y w h : Int) : Bool :=
  if x < 0 ∨ y < 0 ∨ occupancy.cols < x + w ∨ occupancy.rows < y + h then false
  else (intRange y (y + h)).all fun row =>
         (intRange x (x + w)).all fun col => !occupancy.grid row col

/-- Row-major scan order of `findFirstFitPosition`'s nested loops:
pairs `(x, y)` with `0 ≤ y ≤ rows - h`, `0 ≤ x ≤ cols - w`,
ordered by `y` first, then `x`. -/
def fitScan (occupancy : OccupancyGrid) (w h : Int) : List (Int × Int) :=
  (intRange 0 (occupancy.rows - h + 1)).flatMap fun y =>
    (intRange 0 (occupancy.cols - w + 1)).map fun x => (x, y)

/-- `findFirstFitPosition(occupancy, widgetW, widgetH)`. -/
def findFirstFitPosition (occupancy : OccupancyGrid) (widgetW widgetH : Int) :
    Option (Int × Int) :=
  (fitScan occupancy widgetW widgetH).find? fun p =>
    canFitAt occupancy p.1 p.2 widgetW widgetH

/-- `clampToViewport(x, y, w, h, cols, maxRows)`. -/
def clampToViewport (x y w h cols maxRows : Int) : Int × Int :=
  let cx := if x < 0 then 0 else x
  let cy := if y < 0 then 0 else y
  let cx := if cols < cx + w then max 0 (cols - w) else cx
  let cy := if maxRows < cy + h then max 0 (maxRows - h) else cy
  (cx, cy)

/-- `zonesOverlap(a, b)`. -/
def zonesOverlap (a b : GridZone) : Bool :=
  !(decide (b.x + b.w ≤ a.x) || decide (a.x + a.w ≤ b.x) ||
    decide (b.y + b.h ≤ a.y) || decide (a.y + a.h ≤ b.y))

/-- The footprint of a layout entry as a zone. -/
def zoneOf (l : GridItemLayout) : GridZone := ⟨l.x, l.y, l.w, l.h⟩

/-- `PushResult` of the source. -/
structure PushResult where
  canPush : Bool
  newLayouts : List GridItemLayout
  pushedWidgets : List String
deriving DecidableEq, Repr

/-- `tryPushInDirection(layouts, widgetId, dx, dy, avoidZone, cols, maxRows,
excludeId?)`: move the widget rigidly by `(dx, dy)` if the translated rect is
in bounds, clear of the avoid zone, and clear of every other widget. -/
def tryPushInDirection (layouts : List GridItemLayout) (widgetId : String)
    (dx dy : Int) (avoidZone : GridZone) (cols maxRows : Int)
    (excludeId : Option String) : Option (List GridItemLayout) :=
  match layouts.find? (fun l => decide (l.i = widgetId)) with
  | none => none
  | some widget =>
    let newX := widget.x + dx
    let newY := widget.y + dy
    if newX < 0 ∨ cols < newX + widget.w ∨ newY < 0 ∨ maxRows < newY + widget.h then
      none
    else
      let newZone : GridZone := ⟨newX, newY, widget.w, widget.h⟩
      if zonesOverlap newZone avoidZone then none
      else
        let base := createOccupancyGrid
          (layouts.filter fun l => decide (l.i ≠ widgetId) && decide (excludeId ≠ some l.i))
          cols maxRows none
        let occupancy : OccupancyGrid :=
          { base with grid := setRegion maxRows cols true avoidZone base.grid }
        if canFitAt occupancy newX newY widget.w widget.h then
          some (layouts.map fun l =>
            if l.i = widgetId then { l with x := newX, y := newY } else l)
        else none

/-- The four trial directions of `calculatePush` for one overlapping widget:
push right, down, left, up. -/
def pushDirections (targetW targetH : Int) (widget : GridItemLayout) :
    List (Int × Int) :=
  [(targetW, 0), (0, targetH), (-widget.w, 0), (0, -widget.h)]

/-- The inner direction loop of `calculatePush`: first successful direction. -/
def tryPushDirections (dirs : List (Int × Int)) (working : List GridItemLayout)
    (widgetId : String) (targetZone : GridZone) (cols maxRows : Int)
    (excludeId : Option String) : Option (List GridItemLayout) :=
  match dirs with
  | [] => none
  | d :: rest =>
    match tryPushInDirection working widgetId d.1 d.2 targetZone cols maxRows excludeId with
    | some result => some result
    | none => tryPushDirections rest working widgetId targetZone cols maxRows excludeId

/-- The outer widget loop of `calculatePush`: pushes each overlapping widget in
turn, threading the working layouts; `none` as soon as one widget has no
successful direction. -/
def pushLoop (overlapping : List GridItemLayout) (working : List GridItemLayout)
    (pushed : List String) (targetZone : GridZone) (targetW targetH cols maxRows : Int)
    (excludeId : Option String) : Option (List GridItemLayout × List String) :=
  match overlapping with
  | [] => some (working, pushed)
  | widget :: rest =>
    match tryPushDirections (pushDirections targetW targetH widget) working widget.i
        targetZone cols maxRows excludeId with
    | some result =>
        pushLoop rest result (pushed ++ [widget.i]) targetZone targetW targetH
          cols maxRows excludeId
    | none => none

/-- `calculatePush(layouts, targetX, targetY, targetW, targetH, cols, maxRows,
excludeId?)`. -/
def calculatePush (layouts : List GridItemLayout) (targetX targetY targetW targetH : Int)
    (cols maxRows : Int) (excludeId : Option String) : PushResult :=
  let targetZone : GridZone := ⟨targetX, targetY, targetW, targetH⟩
  let overlappingWidgets := layouts.filter fun l =>
    decide (excludeId ≠ some l.i) && zonesOverlap (zoneOf l) targetZone
  if overlappingWidgets.isEmpty then
    { canPush := true, newLayouts := layouts, pushedWidgets := [] }
  else
    -- the source's element-wise copy `layouts.map(l => ({...l}))` is the identity here
    match pushLoop overlappingWidgets layouts [] targetZone
        targetW targetH cols maxRows excludeId with
    | some (working, pushed) =>
        { canPush := true, newLayouts := working, pushedWidgets := pushed }
    | none => { canPush := false, newLayouts := layouts, pushedWidgets := [] }

/-- Candidate cells of one ring of `findBestPositionNear`'s expanding search:
`dy` outer from `-distance` to `distance`, `dx` inner likewise, keeping only
perimeter offsets (`|dx| = distance` or `|dy| = distance`). -/
def ringCandidates (targetX targetY distance : Int) : List (Int × Int) :=
  (intRange (-distance) (distance + 1)).flatMap fun dy =>
    (intRange (-distance) (distance + 1)).flatMap fun dx =>
      if |dx| = distance ∨ |dy| = distance then [(targetX + dx, targetY + dy)] else []

/-- `findBestPositionNear(occupancy, targetX, targetY, widgetW, widgetH, cols,
maxRows)`: the exact target if free, else the first fitting perimeter cell of
rings of distance `1, …, max(cols, maxRows) - 1`, else `findFirstFitPosition`. -/
def findBestPositionNear (occupancy : OccupancyGrid)
    (targetX targetY widgetW widgetH cols maxRows : Int) : Option (Int × Int) :=
  if canFitAt occupancy targetX targetY widgetW widgetH then some (targetX, targetY)
  else
    match ((intRange 1 (max cols maxRows)).flatMap fun distance =>
        ringCandidates targetX targetY distance).find? (fun p =>
          !(decide (p.1 < 0) || decide (p.2 < 0) || decide (cols < p.1 + widgetW) ||
            decide (maxRows < p.2 + widgetH)) &&
          canFitAt occupancy p.1 p.2 widgetW widgetH) with
    | some p => some p
    | none => findFirstFitPosition occupancy widgetW widgetH

/-- `findBestPositionNearExported`: the source duplicates `findBestPositionNear`
verbatim under this exported name. -/
def findBestPositionNearExported (occupancy : OccupancyGrid)
    (targetX targetY widgetW widgetH cols maxRows : Int) : Option (Int × Int) :=
  findBestPositionNear occupancy targetX targetY widgetW widgetH cols maxRows

/-- Insert `a` into `acc` in front of the first element strictly greater than
it (so equal elements keep their existing order). -/
def stableInsert (lt : α → α → Bool) (a : α) : List α → List α
  | [] => [a]
  | b :: bs => if lt a b then a :: b :: bs else b :: stableInsert lt a bs

/-- Stable sort by the strict comparison `lt`: the order produced by
JavaScript's stable `Array.prototype.sort` with the corresponding comparator. -/
def stableSort (lt : α → α → Bool) (l : List α) : List α :=
  l.foldl (fun acc a => stableInsert lt a acc) []

/-- Reading order (`a.y - b.y || a.x - b.x` comparator): top-left first. -/
def readingLt (a b : GridItemLayout) : Bool :=
  decide (a.y < b.y) || (decide (a.y = b.y) && decide (a.x < b.x))

/-- One placement step of `adjustLayoutsToViewport`: clamp, then take the
clamped spot, else the best nearby spot, else any first-fit spot, else keep the
clamped position as a last resort. -/
def adjustStep (cols maxRows : Int) (st : Occ × List GridItemLayout)
    (l : GridItemLayout) : Occ × List GridItemLayout :=
  let g := st.1
  let c := clampToViewport l.x l.y l.w l.h cols maxRows
  let occupancy : OccupancyGrid := ⟨g, cols, maxRows⟩
  if canFitAt occupancy c.1 c.2 l.w l.h then
    (setRegion maxRows cols true ⟨c.1, c.2, l.w, l.h⟩ g,
     st.2 ++ [{ l with x := c.1, y := c.2 }])
  else
    match findBestPositionNearExported occupancy c.1 c.2 l.w l.h cols maxRows with
    | some p =>
        (setRegion maxRows cols true ⟨p.1, p.2, l.w, l.h⟩ g,
         st.2 ++ [{ l with x := p.1, y := p.2 }])
    | none =>
      match findFirstFitPosition occupancy l.w l.h with
      | some p =>
          (setRegion maxRows cols true ⟨p.1, p.2, l.w, l.h⟩ g,
           st.2 ++ [{ l with x := p.1, y := p.2 }])
      | none => (g, st.2 ++ [{ l with x := c.1, y := c.2 }])

/-- `adjustLayoutsToViewport(layouts, cols, maxRows)`: sort by reading order,
greedily re-place each widget inside the viewport, then force-clamp all. -/
def adjustLayoutsToViewport (layouts : List GridItemLayout) (cols maxRows : Int) :
    List GridItemLayout :=
  let sortedLayouts := stableSort readingLt layouts
  let adjusted := (sortedLayouts.foldl (adjustStep cols maxRows) (fun _ _ => false, [])).2
  adjusted.map fun l =>
    let c := clampToViewport l.x l.y l.w l.h cols maxRows
    { l with x := c.1, y := c.2 }

/-- `MultiSwapPreview` of the source (`targetNewPositions` entries are
`{id, pos}` objects, modelled as pairs). -/
structure MultiSwapPreview where
  sourceId : String
  targetIds : List String
  sourceNewPos : GridZone
  targetNewPositions : List (String × GridZone)
deriving DecidableEq, Repr

/-- The position map of `calculateMultiSwap` (`Map.set` source first, then each
target, later entries overwriting earlier ones). -/
def multiSwapLookup (preview : MultiSwapPreview) (id : String) : Option GridZone :=
  match preview.targetNewPositions.reverse.find? (fun t => decide (t.1 = id)) with
  | some t => some t.2
  | none => if preview.sourceId = id then some preview.sourceNewPos else none

/-- `calculateMultiSwap(layouts, multiSwapPreview, cols?, maxRows?)`: apply the
preview's positions (sizes kept), then run the viewport adjustment pass. -/
def calculateMultiSwap (layouts : List GridItemLayout) (preview : MultiSwapPreview)
    (cols maxRows : Int) : List GridItemLayout :=
  let newLayouts := layouts.map fun l =>
    match multiSwapLookup preview l.i with
    | some p => { l with x := p.x, y := p.y }
    | none => l
  adjustLayoutsToViewport newLayouts cols maxRows

/-- The per-element position replacement of `calculateSwap`'s final layout
construction: the source and target move to their computed positions (sizes
kept), everything else is untouched. -/
def swapMap (sourceId targetId : String) (sx sy tx ty : Int)
    (l : GridItemLayout) : GridItemLayout :=
  if l.i = sourceId then { l with x := sx, y := sy }
  else if l.i = targetId then { l with x := tx, y := ty }
  else l

/-- The final layout construction of `calculateSwap`: apply `swapMap`, then
send the whole list through the viewport adjustment pass. -/
def swapFinish (layouts : List GridItemLayout) (sourceId targetId : String)
    (sx sy tx ty cols maxRows : Int) : Option (List GridItemLayout) :=
  some (adjustLayoutsToViewport
    (layouts.map (swapMap sourceId targetId sx sy tx ty)) cols maxRows)

/-- The two-step clamp `calculateSwap` applies to each direct swap coordinate:
pull back so the widget ends at the boundary when it would stick out, then
floor at `0`. -/
def clampCoord (v size bound : Int) : Int :=
  let v0 := if bound < v + size then bound - size else v
  if v0 < 0 then 0 else v0

/-- The occupancy grid `calculateSwap` searches in: everything marked except
the source (excluded by id) and the target (whose zone is cleared). -/
def swapBaseOcc (layouts : List GridItemLayout) (targetLayout : GridItemLayout)
    (sourceId : String) (cols maxRows : Int) : Occ :=
  setRegion maxRows cols false (zoneOf targetLayout)
    (createOccupancyGrid layouts cols maxRows (some sourceId)).grid

/-- The position-search core of `calculateSwap`: given the source and target
entries, computes the pair of new positions `((sx, sy), (tx, ty))`.  Tries the
direct position exchange, clamped to bounds; on conflicts searches nearby
positions, placing the source first and falling back to placing the target
first; `none` when no pair of positions is found. -/
def calculateSwapPositions (layouts : List GridItemLayout)
    (sourceLayout targetLayout : GridItemLayout) (sourceId : String)
    (cols maxRows : Int) : Option ((Int × Int) × (Int × Int)) :=
  -- occupancy grid excluding both source and target
  let baseOcc : Occ := swapBaseOcc layouts targetLayout sourceId cols maxRows
  let occupancy : OccupancyGrid := ⟨baseOcc, cols, maxRows⟩
  -- direct swap positions, clamped to the grid
  let sx := clampCoord targetLayout.x sourceLayout.w cols
  let sy := clampCoord targetLayout.y sourceLayout.h maxRows
  let tx := clampCoord sourceLayout.x targetLayout.w cols
  let ty := clampCoord sourceLayout.y targetLayout.h maxRows
  let sourceNewZone : GridZone := ⟨sx, sy, sourceLayout.w, sourceLayout.h⟩
  let targetNewZone : GridZone := ⟨tx, ty, targetLayout.w, targetLayout.h⟩
  if zonesOverlap sourceNewZone targetNewZone then
    -- adjusted positions overlap: place one widget, search near for the other
    if canFitAt occupancy sx sy sourceLayout.w sourceLayout.h then
      let tempOcc : OccupancyGrid :=
        ⟨setRegion maxRows cols true sourceNewZone baseOcc, cols, maxRows⟩
      match findBestPositionNear tempOcc sourceLayout.x sourceLayout.y
          targetLayout.w targetLayout.h cols maxRows with
      | some p => some ((sx, sy), p)
      | none => none
    else if canFitAt occupancy tx ty targetLayout.w targetLayout.h then
      let tempOcc : OccupancyGrid :=
        ⟨setRegion maxRows cols true targetNewZone baseOcc, cols, maxRows⟩
      match findBestPositionNear tempOcc targetLayout.x targetLayout.y
          sourceLayout.w sourceLayout.h cols maxRows with
      | some p => some (p, (tx, ty))
      | none => none
    else none
  else
    -- no overlap: verify both fit, searching for alternatives if not
    let sourceCanFit := canFitAt occupancy sx sy sourceLayout.w sourceLayout.h
    let occupancyWithSource : OccupancyGrid :=
      ⟨setRegion maxRows cols true sourceNewZone baseOcc, cols, maxRows⟩
    let targetCanFit :=
      canFitAt occupancyWithSource tx ty targetLayout.w targetLayout.h
    if sourceCanFit && targetCanFit then
      some ((sx, sy), (tx, ty))
    else
      let srcPos : Option (Int × Int) :=
        if sourceCanFit then some (sx, sy)
        else findBestPositionNear occupancy targetLayout.x targetLayout.y
          sourceLayout.w sourceLayout.h cols maxRows
      match srcPos with
      | none => none
      | some s =>
        let newOccupancy : OccupancyGrid :=
          ⟨setRegion maxRows cols true ⟨s.1, s.2, sourceLayout.w, sourceLayout.h⟩
            baseOcc, cols, maxRows⟩
        if canFitAt newOccupancy tx ty targetLayout.w targetLayout.h then
          some (s, (tx, ty))
        else
          match findBestPositionNear newOccupancy sourceLayout.x sourceLayout.y
              targetLayout.w targetLayout.h cols maxRows with
          | some p => some (s, p)
          | none => none

/-- `calculateSwap(layouts, sourceId, targetId, cols?, maxRows?)` (the default
grid size of the optional parameters is applied by the caller here): find the
new positions for source and target, then build and viewport-adjust the swapped
layout. -/
def calculateSwap (layouts : List GridItemLayout) (sourceId targetId : String)
    (cols maxRows : Int) : Option (List GridItemLayout) :=
  match layouts.find? (fun l => decide (l.i = sourceId)),
        layouts.find? (fun l => decide (l.i = targetId)) with
  | some sourceLayout, some targetLayout =>
    match calculateSwapPositions layouts sourceLayout targetLayout sourceId
        cols maxRows with
    | some p => swapFinish layouts sourceId targetId p.1.1 p.1.2 p.2.1 p.2.2 cols maxRows
    | none => none
  | _, _ => none

/-- An entry of the `WidgetMinSizes` lookup object. -/
structure MinSize where
  minW : Int
  minH : Int
deriving DecidableEq, Repr

/-- `WidgetMinSizes`: the caller-supplied minimum-size table
(`widgetMinSizes[id]` is `none` for ids absent from the object). -/
def WidgetMinSizes : Type := String → Option MinSize

/-- The default used at every lookup site: `widgetMinSizes[id] || {minW: 2, minH: 2}`. -/
def lookupMinSize (widgetMinSizes : WidgetMinSizes) (id : String) : MinSize :=
  (widgetMinSizes id).getD ⟨2, 2⟩

/-- `ResizeSpaceResult` of the source. -/
structure ResizeSpaceResult where
  canResize : Bool
  newLayouts : List GridItemLayout
  movedWidgets : List String
  shrunkWidgets : List String
deriving DecidableEq, Repr

/-- Phase 1 of `calculateResizeSpace`: for each affected widget, try to move it
to the first free spot (treating the resizing widget's new bounds as occupied).
Returns the working layouts, the moved ids (in processing order) and the
still-affected widgets (in original order). -/
def resizePhase1 (affected : List GridItemLayout) (working : List GridItemLayout)
    (newBounds : GridZone) (resizingId : String) (cols maxRows : Int) :
    List GridItemLayout × List String × List GridItemLayout :=
  match affected with
  | [] => (working, [], [])
  | widget :: rest =>
    let base := createOccupancyGrid
      (working.filter fun l => decide (l.i ≠ widget.i) && decide (l.i ≠ resizingId))
      cols maxRows none
    let occupancy : OccupancyGrid :=
      { base with grid := setRegion maxRows cols true newBounds base.grid }
    match findFirstFitPosition occupancy widget.w widget.h with
    | some p =>
      let working' := working.map fun l =>
        if l.i = widget.i then { l with x := p.1, y := p.2 } else l
      let res := resizePhase1 rest working' newBounds resizingId cols maxRows
      (res.1, widget.i :: res.2.1, res.2.2)
    | none =>
      let res := resizePhase1 rest working newBounds resizingId cols maxRows
      (res.1, res.2.1, widget :: res.2.2)

/-- Area-descending order (`(b.w*b.h) - (a.w*a.h)` comparator). -/
def areaGt (a b : GridItemLayout) : Bool := decide (b.w * b.h < a.w * a.h)

/-- Phase 2 of `calculateResizeSpace`: shrink each still-affected widget away
from the resizing widget's new bounds, never below its minimum size; `none`
aborts the whole resize as soon as one widget cannot be legally shrunk. -/
def resizePhase2 (still : List GridItemLayout) (working : List GridItemLayout)
    (shrunk : List String) (newBounds : GridZone)
    (widgetMinSizes : WidgetMinSizes) : Option (List GridItemLayout × List String) :=
  match still with
  | [] => some (working, shrunk)
  | widget :: rest =>
    let minSizes := lookupMinSize widgetMinSizes widget.i
    match working.find? (fun l => decide (l.i = widget.i)) with
    | none => resizePhase2 rest working shrunk newBounds widgetMinSizes
    | some currentWidget =>
      let overlapRight := max 0 ((newBounds.x + newBounds.w) - currentWidget.x)
      let overlapBottom := max 0 ((newBounds.y + newBounds.h) - currentWidget.y)
      let overlapLeft := max 0 ((currentWidget.x + currentWidget.w) - newBounds.x)
      let overlapTop := max 0 ((currentWidget.y + currentWidget.h) - newBounds.y)
      if 0 < overlapRight ∧ minSizes.minW ≤ currentWidget.w - overlapRight then
        resizePhase2 rest
          (working.map fun l =>
            if l.i = widget.i then { l with x := l.x + overlapRight, w := l.w - overlapRight }
            else l)
          (shrunk ++ [widget.i]) newBounds widgetMinSizes
      else if 0 < overlapBottom ∧ minSizes.minH ≤ currentWidget.h - overlapBottom then
        resizePhase2 rest
          (working.map fun l =>
            if l.i = widget.i then { l with y := l.y + overlapBottom, h := l.h - overlapBottom }
            else l)
          (shrunk ++ [widget.i]) newBounds widgetMinSizes
      else if 0 < overlapLeft ∧ minSizes.minW ≤ currentWidget.w - overlapLeft then
        resizePhase2 rest
          (working.map fun l =>
            if l.i = widget.i then { l with w := l.w - overlapLeft } else l)
          (shrunk ++ [widget.i]) newBounds widgetMinSizes
      else if 0 < overlapTop ∧ minSizes.minH ≤ currentWidget.h - overlapTop then
        resizePhase2 rest
          (working.map fun l =>
            if l.i = widget.i then { l with h := l.h - overlapTop } else l)
          (shrunk ++ [widget.i]) newBounds widgetMinSizes
      else none

/-- `calculateResizeSpace(layouts, resizingId, newX, newY, newW, newH, cols,
maxRows, widgetMinSizes)`. -/
def calculateResizeSpace (layouts : List GridItemLayout) (resizingId : String)
    (newX newY newW newH cols maxRows : Int) (widgetMinSizes : WidgetMinSizes) :
    ResizeSpaceResult :=
  match layouts.find? (fun l => decide (l.i = resizingId)) with
  | none => { canResize := false, newLayouts := layouts, movedWidgets := [], shrunkWidgets := [] }
  | some _ =>
    let newBounds : GridZone := ⟨newX, newY, newW, newH⟩
    if newBounds.x < 0 ∨ newBounds.y < 0 ∨ cols < newBounds.x + newBounds.w ∨
       maxRows < newBounds.y + newBounds.h then
      { canResize := false, newLayouts := layouts, movedWidgets := [], shrunkWidgets := [] }
    else
      let affectedWidgets := layouts.filter fun l =>
        decide (l.i ≠ resizingId) && zonesOverlap (zoneOf l) newBounds
      if affectedWidgets.isEmpty then
        { canResize := true
          newLayouts := layouts.map fun l =>
            if l.i = resizingId then { l with x := newX, y := newY, w := newW, h := newH }
            else l
          movedWidgets := [], shrunkWidgets := [] }
      else
        -- the source's element-wise copy `layouts.map(l => ({...l}))` is the identity here
        let res := resizePhase1 affectedWidgets layouts newBounds resizingId cols maxRows
        if res.2.2.isEmpty then
          { canResize := true
            newLayouts := res.1.map fun l =>
              if l.i = resizingId then { l with x := newX, y := newY, w := newW, h := newH }
              else l
            movedWidgets := res.2.1, shrunkWidgets := [] }
        else
          match resizePhase2 (stableSort areaGt res.2.2) res.1 [] newBounds widgetMinSizes with
          | none =>
            { canResize := false, newLayouts := layouts, movedWidgets := [], shrunkWidgets := [] }
          | some pr =>
            { canResize := true
              newLayouts := pr.1.map fun l =>
                if l.i = resizingId then { l with x := newX, y := newY, w := newW, h := newH }
                else l
              movedWidgets := res.2.1, shrunkWidgets := pr.2 }

/-- One widget placement of the greedy packing loop shared by `repackWidgets`
and `repackWidgetsOptimal`: place the widget at the first free position of the
scan, keeping its original position when no spot exists. -/
def packStep (cols maxRows : Int) (st : List GridItemLayout × Occ)
    (widget : GridItemLayout) : List GridItemLayout × Occ :=
  match findFirstFitPosition ⟨st.2, cols, maxRows⟩ widget.w widget.h with
  | some p =>
      (st.1 ++ [{ widget with x := p.1, y := p.2 }],
       setRegion maxRows cols true ⟨p.1, p.2, widget.w, widget.h⟩ st.2)
  | none => (st.1 ++ [widget], st.2)

/-- The greedy packing loop over an already-sorted list, starting from an empty
grid; returns the packed list and the occupancy built along the way. -/
def packGreedy (sorted : List GridItemLayout) (cols maxRows : Int) :
    List GridItemLayout × Occ :=
  sorted.foldl (packStep cols maxRows) ([], fun _ _ => false)

/-- `repackWidgets(layouts, cols, maxRows)`: greedy repack in reading order. -/
def repackWidgets (layouts : List GridItemLayout) (cols maxRows : Int) :
    List GridItemLayout :=
  if layouts.isEmpty then layouts
  else (packGreedy (stableSort readingLt layouts) cols maxRows).1

/-- Width-descending order (`b.w - a.w || b.h - a.h` comparator). -/
def widthGt (a b : GridItemLayout) : Bool :=
  decide (b.w < a.w) || (decide (a.w = b.w) && decide (b.h < a.h))

/-- Height-descending order (`b.h - a.h || b.w - a.w` comparator). -/
def heightGt (a b : GridItemLayout) : Bool :=
  decide (b.h < a.h) || (decide (a.h = b.h) && decide (b.w < a.w))

/-- `1` when the widget's width evenly divides the column count, else `0`
(`cols % a.w === 0`; a zero width gives `NaN % … !== 0` in the source, hence
the `w ≠ 0` guard). -/
def fillsRow (cols : Int) (a : GridItemLayout) : Int :=
  if a.w ≠ 0 ∧ cols % a.w = 0 then 1 else 0

/-- Row-filling-efficiency order (strategy 5's comparator). -/
def fillsRowGt (cols : Int) (a b : GridItemLayout) : Bool :=
  decide (fillsRow cols b < fillsRow cols a) ||
  (decide (fillsRow cols a = fillsRow cols b) && areaGt a b)

/-- The five sorting strategies of `repackWidgetsOptimal`, in trial order. -/
def strategyOrders (layouts : List GridItemLayout) (cols : Int) :
    List (List GridItemLayout) :=
  [stableSort areaGt layouts,
   stableSort widthGt layouts,
   stableSort heightGt layouts,
   stableSort readingLt layouts,
   stableSort (fillsRowGt cols) layouts]

/-- `Math.max(...packed.map(w => w.y + w.h))` for a non-empty list, `0` for `[]`. -/
def maxYOf (layouts : List GridItemLayout) : Int :=
  match layouts with
  | [] => 0
  | a :: rest => rest.foldl (fun m r => max m (r.y + r.h)) (a.y + a.h)

/-- Unoccupied-cell count of the rows above `maxY` (clipped at `maxRows`). -/
def countEmptyAtTop (g : Occ) (maxY maxRows cols : Int) : Int :=
  (intRange 0 (min maxY maxRows)).foldl
    (fun s y => (intRange 0 cols).foldl (fun s' x => if g y x then s' else s' + 1) s) 0

/-- The five candidate packings of `repackWidgetsOptimal`. -/
def repackCandidates (layouts : List GridItemLayout) (cols maxRows : Int) :
    List (List GridItemLayout) :=
  (strategyOrders layouts cols).map fun sorted => (packGreedy sorted cols maxRows).1

/-- One selection step of `repackWidgetsOptimal`'s strategy loop; the state is
`(bestPacking, bestMaxY, bestEmptySpaceAtTop)` with `none` as the initial
`Infinity`. -/
def repackSelect (cols maxRows : Int)
    (st : List GridItemLayout × Option Int × Int) (sorted : List GridItemLayout) :
    List GridItemLayout × Option Int × Int :=
  let (packed, g) := packGreedy sorted cols maxRows
  let maxY := maxYOf packed
  let emptySpaceAtTop := countEmptyAtTop g maxY maxRows cols
  let better := match st.2.1 with
    | none => true
    | some bestMaxY =>
        decide (maxY < bestMaxY) || (decide (maxY = bestMaxY) && decide (st.2.2 < emptySpaceAtTop))
  if better then (packed, some maxY, emptySpaceAtTop) else st

/-- `repackWidgetsOptimal(layouts, cols, maxRows)`: try the five orderings and
keep the candidate with least vertical extent, ties broken by more empty cells
above that extent. -/
def repackWidgetsOptimal (layouts : List GridItemLayout) (cols maxRows : Int) :
    List GridItemLayout :=
  if layouts.isEmpty then layouts
  else ((strategyOrders layouts cols).foldl (repackSelect cols maxRows)
    (layouts, none, -1)).1

/-- `AutoAdjustResult` of the source. -/
structure AutoAdjustResult where
  canAdd : Bool
  adjustedLayouts : List GridItemLayout
  newWidgetPosition : Option (Int × Int)
  shrunkWidgets : List String
deriving DecidableEq, Repr

/-- The feasibility precheck sum of `calculateAutoAdjustForNewWidget`: every
widget's minimum area (table lookup, defaulting to `2 × 2`). -/
def minPossibleUsage (layouts : List GridItemLayout) (widgetMinSizes : WidgetMinSizes) : Int :=
  layouts.foldl
    (fun s l => let m := lookupMinSize widgetMinSizes l.i; s + m.minW * m.minH) 0

/-- A phase-3 shrink candidate (`shrinkW = true` shrinks width, else height). -/
structure ShrinkCandidate where
  id : String
  shrinkW : Bool
  excessSpace : Int
  currentSize : Int
deriving DecidableEq, Repr

/-- One widget's examination in the phase-3 candidate scan (width check first,
then height check, each replacing the best candidate on a strict `>` priority
comparison). -/
def pickStep (widgetMinSizes : WidgetMinSizes) (best : Option ShrinkCandidate)
    (l : GridItemLayout) : Option ShrinkCandidate :=
  let m := lookupMinSize widgetMinSizes l.i
  let excessW := l.w - m.minW
  let excessH := l.h - m.minH
  let currentSize := l.w * l.h
  let beats := fun (b? : Option ShrinkCandidate) =>
    match b? with
    | none => true
    | some b => decide (b.excessSpace + b.currentSize < currentSize + (excessW + excessH))
  let best :=
    if decide (0 < excessW) && beats best then
      some ⟨l.i, true, excessW + excessH, currentSize⟩
    else best
  if decide (0 < excessH) && beats best then
    some ⟨l.i, false, excessW + excessH, currentSize⟩
  else best

/-- The phase-3 candidate scan: the widget (and dimension) with the greatest
`currentSize + excess` priority among those with shrink room, first-seen
winning ties. -/
def pickShrinkCandidate (working : List GridItemLayout)
    (widgetMinSizes : WidgetMinSizes) : Option ShrinkCandidate :=
  working.foldl (pickStep widgetMinSizes) none

/-- Shrink the candidate's widget by one unit in the chosen dimension. -/
def shrinkById (working : List GridItemLayout) (c : ShrinkCandidate) :
    List GridItemLayout :=
  working.map fun l =>
    if l.i = c.id then
      if c.shrinkW then { l with w := l.w - 1 } else { l with h := l.h - 1 }
    else l

/-- `Set.add` on the insertion-ordered shrunk-id set. -/
def addShrunk (s : List String) (id : String) : List String :=
  if id ∈ s then s else s ++ [id]

/-- Phase 3 of `calculateAutoAdjustForNewWidget`: repeatedly shrink the most
elastic widget by one unit and repack (simple, then optimal), returning the
first arrangement that fits the new widget; `Sum.inr` carries the final working
layouts and shrunk ids into phase 4 (fuel = the 200-iteration safety limit). -/
def autoAdjustPhase3 (fuel : Nat) (working : List GridItemLayout)
    (shrunk : List String) (newWidgetW newWidgetH cols maxRows : Int)
    (widgetMinSizes : WidgetMinSizes) :
    AutoAdjustResult ⊕ (List GridItemLayout × List String) :=
  match fuel with
  | 0 => Sum.inr (working, shrunk)
  | fuel + 1 =>
    match pickShrinkCandidate working widgetMinSizes with
    | none => Sum.inr (working, shrunk)
    | some c =>
      let shrunk' := addShrunk shrunk c.id
      let working' := shrinkById working c
      let packed := repackWidgets working' cols maxRows
      match findFirstFitPosition (createOccupancyGrid packed cols maxRows none)
          newWidgetW newWidgetH with
      | some p =>
          Sum.inl { canAdd := true, adjustedLayouts := packed,
                    newWidgetPosition := some p, shrunkWidgets := shrunk' }
      | none =>
        let packed2 := repackWidgetsOptimal working' cols maxRows
        match findFirstFitPosition (createOccupancyGrid packed2 cols maxRows none)
            newWidgetW newWidgetH with
        | some p =>
            Sum.inl { canAdd := true, adjustedLayouts := packed2,
                      newWidgetPosition := some p, shrunkWidgets := shrunk' }
        | none =>
            autoAdjustPhase3 fuel packed2 shrunk' newWidgetW newWidgetH cols maxRows
              widgetMinSizes

/-- Phase 4's `minimumLayouts`: every widget shrunk to its table minimum. -/
def shrinkAllToMin (working : List GridItemLayout)
    (widgetMinSizes : WidgetMinSizes) : List GridItemLayout :=
  working.map fun l =>
    let m := lookupMinSize widgetMinSizes l.i
    { l with w := m.minW, h := m.minH }

/-- `calculateAutoAdjustForNewWidget(layouts, newWidgetW, newWidgetH, cols,
maxRows, widgetMinSizes, maxWidgets?)` (the unused `maxWidgets` parameter is
dropped). -/
def calculateAutoAdjustForNewWidget (layouts : List GridItemLayout)
    (newWidgetW newWidgetH cols maxRows : Int) (widgetMinSizes : WidgetMinSizes) :
    AutoAdjustResult :=
  -- Phase 1: existing space
  match findFirstFitPosition (createOccupancyGrid layouts cols maxRows none)
      newWidgetW newWidgetH with
  | some p =>
      { canAdd := true, adjustedLayouts := layouts,
        newWidgetPosition := some p, shrunkWidgets := [] }
  | none =>
    -- Phase 2: repack without size changes
    let repackedLayouts := repackWidgetsOptimal layouts cols maxRows
    match findFirstFitPosition (createOccupancyGrid repackedLayouts cols maxRows none)
        newWidgetW newWidgetH with
    | some p =>
        { canAdd := true, adjustedLayouts := repackedLayouts,
          newWidgetPosition := some p, shrunkWidgets := [] }
    | none =>
      -- feasibility precheck
      if cols * maxRows < minPossibleUsage layouts widgetMinSizes + newWidgetW * newWidgetH then
        { canAdd := false, adjustedLayouts := layouts,
          newWidgetPosition := none, shrunkWidgets := [] }
      else
        -- the source's element-wise copy `layouts.map(l => ({...l}))` is the identity here
        match autoAdjustPhase3 200 layouts [] newWidgetW newWidgetH
            cols maxRows widgetMinSizes with
        | Sum.inl result => result
        | Sum.inr pr =>
          -- Phase 4: shrink everything to minimum and repack optimally
          let shrunkAll := pr.1.foldl (fun s l => addShrunk s l.i) pr.2
          let minPackedLayouts :=
            repackWidgetsOptimal (shrinkAllToMin pr.1 widgetMinSizes) cols maxRows
          match findFirstFitPosition
              (createOccupancyGrid minPackedLayouts cols maxRows none)
              newWidgetW newWidgetH with
          | some p =>
              { canAdd := true, adjustedLayouts := minPackedLayouts,
                newWidgetPosition := some p, shrunkWidgets := shrunkAll }
          | none =>
              { canAdd := false, adjustedLayouts := layouts,
                newWidgetPosition := none, shrunkWidgets := [] }

end GridHelpers

namespace GridHelpers

/-! ## The spec's invariants as predicates -/

/-- A rect lies fully inside the grid bounds
(`x ≥ 0, y ≥ 0, x + w ≤ cols, y + h ≤ maxRows`). -/
def inBounds (cols maxRows : Int) (l : GridItemLayout) : Prop :=
  0 ≤ l.x ∧ 0 ≤ l.y ∧ l.x + l.w ≤ cols ∧ l.y + l.h ≤ maxRows

instance (cols maxRows : Int) (l : GridItemLayout) :
    Decidable (inBounds cols maxRows l) := by
  unfold inBounds; infer_instance

/-- No two rects of a layout overlap. -/
def noOverlap (layouts : List GridItemLayout) : Prop :=
  layouts.Pairwise fun a b => zonesOverlap (zoneOf a) (zoneOf b) = false

instance (layouts : List GridItemLayout) : Decidable (noOverlap layouts) := by
  unfold noOverlap; exact List.instDecidablePairwise layouts

/-- Cell `(row r, column c)` lies inside zone `z`. -/
def cellIn (z : GridZone) (r c : Int) : Prop :=
  z.y ≤ r ∧ r < z.y + z.h ∧ z.x ≤ c ∧ c < z.x + z.w

/-! ## Named example layouts and bookkeeping predicates used below -/

/-- The two-widget layout of the spec's push example scenario:
`A(0,0,6,6)` and `B(6,0,6,6)` on a `cols = 12`, `maxRows = 10` grid. -/
def pushExampleLayouts : List GridItemLayout :=
  [⟨"A", 0, 0, 6, 6⟩, ⟨"B", 6, 0, 6, 6⟩]

/-- The layout of the spec's auto-adjust example scenario:
`A(0,0,8,14)` and `B(8,0,10,14)` on a `cols = 25`, `maxRows = 20` grid. -/
def autoAdjustExampleLayouts : List GridItemLayout :=
  [⟨"A", 0, 0, 8, 14⟩, ⟨"B", 8, 0, 10, 14⟩]

/-- Strict row-major order on scan positions (`(x, y)` pairs; row `y` first). -/
def scanLt (p q : Int × Int) : Prop := p.2 < q.2 ∨ (p.2 = q.2 ∧ p.1 < q.1)

/-- The id-and-size signature of a layout entry (positions forgotten). -/
def sizeSig (r : GridItemLayout) : String × Int × Int := (r.i, r.w, r.h)

/-- A valid layout on a `3 × 7` grid whose vertical extent is `6`, but every
one of the five greedy repack candidates has extent `7`. -/
def c3Layouts : List GridItemLayout :=
  [⟨"r0", 0, 1, 2, 2⟩, ⟨"r2", 2, 0, 1, 4⟩, ⟨"r5", 0, 3, 1, 3⟩, ⟨"r7", 1, 4, 2, 2⟩]

/-- The min-size property of one id-and-size signature: if the id is in the
table, both dimensions are at or above the table minimum. -/
def minOkSig (widgetMinSizes : WidgetMinSizes) (s : String × Int × Int) : Prop :=
  match widgetMinSizes s.1 with
  | none => True
  | some m => m.minW ≤ s.2.1 ∧ m.minH ≤ s.2.2

instance (widgetMinSizes : WidgetMinSizes) (s : String × Int × Int) :
    Decidable (minOkSig widgetMinSizes s) :=
  match h : widgetMinSizes s.1 with
  | none => isTrue (by unfold minOkSig; rw [h]; trivial)
  | some m =>
      decidable_of_iff (m.minW ≤ s.2.1 ∧ m.minH ≤ s.2.2) (by unfold minOkSig; rw [h])

/-- `minOkSig` of a layout entry. -/
def minOk (widgetMinSizes : WidgetMinSizes) (r : GridItemLayout) : Prop :=
  minOkSig widgetMinSizes (sizeSig r)

instance (widgetMinSizes : WidgetMinSizes) (r : GridItemLayout) :
    Decidable (minOk widgetMinSizes r) := by
  unfold minOk; infer_instance

/-- After any number of shrink steps, a widget traces back to an input entry
with its id, and each dimension is either still the input value or at or above
the lookup minimum (table entry, or the `2 × 2` default for absent ids). -/
def shrinkOk (widgetMinSizes : WidgetMinSizes) (orig : List GridItemLayout)
    (s : String × Int × Int) : Prop :=
  ∃ r₀ ∈ orig, r₀.i = s.1 ∧
    (s.2.1 = r₀.w ∨ (lookupMinSize widgetMinSizes s.1).minW ≤ s.2.1) ∧
    (s.2.2 = r₀.h ∨ (lookupMinSize widgetMinSizes s.1).minH ≤ s.2.2)

/-- The conclusion tracked through phase 3: a success result's layouts are all
`shrinkOk`; a fall-through to phase 4 keeps `shrinkOk` and distinct ids. -/
def phase3Good (widgetMinSizes : WidgetMinSizes) (orig : List GridItemLayout) :
    AutoAdjustResult ⊕ (List GridItemLayout × List String) → Prop
  | Sum.inl res => ∀ r ∈ res.adjustedLayouts, shrinkOk widgetMinSizes orig (sizeSig r)
  | Sum.inr pr => (∀ r ∈ pr.1, shrinkOk widgetMinSizes orig (sizeSig r)) ∧
      (pr.1.map fun r => r.i).Nodup

/-- The one-widget layout and table of the C6 counterexample. -/
def c6Layouts : List GridItemLayout := [⟨"X", 0, 0, 3, 3⟩]

/-- A table giving widget `X` the minimum size `2 × 2`. -/
def c6Table : WidgetMinSizes := fun id => if id = "X" then some ⟨2, 2⟩ else none

/-! ## C1: the global no-overlap / in-bounds invariant -/

/-- A perfectly valid layout: `A(0,0,2,2)` and `B(2,0,2,2)` on a `4 × 2` grid. -/
def c1Layouts : List GridItemLayout := [⟨"A", 0, 0, 2, 2⟩, ⟨"B", 2, 0, 2, 2⟩]

/-- A multi-swap preview asking to move `A` one column right. -/
def c1Preview : MultiSwapPreview := ⟨"A", [], ⟨1, 0, 2, 2⟩, []⟩

/-- **C1** (failing input): on the valid layout `A(0,0,2,2)`, `B(2,0,2,2)` of a
`cols = 4`, `maxRows = 2` grid, `calculateMultiSwap` with a preview placing `A`
at `(1,0)` returns the layout `A(1,0,2,2)`, `B(2,0,2,2)` — a non-failure result
(the function has no failure value) in which `A` and `B` overlap, because the
viewport-adjustment pass keeps `B`'s clamped position as a "last resort" when
no free position exists.  This contradicts the spec's core invariant, which
requires every component to "preserve this invariant or report failure". -/
theorem calculateMultiSwap_returns_overlapping_layout :
    (∀ l ∈ c1Layouts, inBounds 4 2 l) ∧ noOverlap c1Layouts ∧
    calculateMultiSwap c1Layouts c1Preview 4 2 =
      [⟨"A", 1, 0, 2, 2⟩, ⟨"B", 2, 0, 2, 2⟩] ∧
    zonesOverlap (zoneOf ⟨"A", 1, 0, 2, 2⟩) (zoneOf ⟨"B", 2, 0, 2, 2⟩) = true := by
  decide

/-! ## C2: the push example scenario -/

/-- **C2 counterexample**: the push of a `(6,6)` rect at `(3,0)` does *not*
return `canPush = true` with `A` at `(0,6)`, `B` at `(6,6)` and
`pushedWidgets = ['A','B']` as the claim states. -/
theorem push_example_not_as_claimed :
    calculatePush pushExampleLayouts 3 0 6 6 12 10 none ≠
      { canPush := true,
        newLayouts := [⟨"A", 0, 6, 6, 6⟩, ⟨"B", 6, 6, 6, 6⟩],
        pushedWidgets := ["A", "B"] } := by
  decide

/-- **C2** (amended): on that input the push fails outright — pushing `A` or
`B` down would end at `y = 6` with height `6`, exceeding `maxRows = 10`, and
the right/left/up directions are blocked too, so `calculatePush` returns
`canPush = false` with the original layout and no pushed widgets. -/
theorem push_example_fails_unchanged :
    calculatePush pushExampleLayouts 3 0 6 6 12 10 none =
      { canPush := false, newLayouts := pushExampleLayouts, pushedWidgets := [] } := by
  decide

/-! ## C7: the auto-adjust example scenario -/

/-- **C7**: adding a `6 × 14` widget to `A(0,0,8,14)`, `B(8,0,10,14)` on a
`25 × 20` grid succeeds immediately at the first-fit position `(18, 0)` with
the layout untouched and no widget shrunk. -/
theorem autoAdjust_example_first_fit :
    calculateAutoAdjustForNewWidget autoAdjustExampleLayouts 6 14 25 20
      (fun _ => none) =
      { canAdd := true, adjustedLayouts := autoAdjustExampleLayouts,
        newWidgetPosition := some (18, 0), shrunkWidgets := [] } := by
  decide

/-! ## C8: the placement finder -/

theorem mem_intRange {lo hi a : Int} : a ∈ intRange lo hi ↔ lo ≤ a ∧ a < hi := by
  constructor
  · intro ha
    rw [intRange, List.mem_map] at ha
    obtain ⟨k, hk, rfl⟩ := ha
    rw [List.mem_range] at hk
    omega
  · rintro ⟨h1, h2⟩
    rw [intRange, List.mem_map]
    exact ⟨(a - lo).toNat, List.mem_range.mpr (by omega), by omega⟩

theorem intRange_pairwise {lo hi : Int} : (intRange lo hi).Pairwise (· < ·) := by
  unfold intRange
  rw [List.pairwise_map]
  exact (List.pairwise_lt_range _).imp (by intro a b hab; omega)

/-- `canFitAt` holds exactly when the rectangle lies inside the grid bounds and
every covered cell is unoccupied. -/
theorem canFitAt_iff (occ : OccupancyGrid) (x y w h : Int) :
    canFitAt occ x y w h = true ↔
      (0 ≤ x ∧ 0 ≤ y ∧ x + w ≤ occ.cols ∧ y + h ≤ occ.rows ∧
       ∀ r c : Int, y ≤ r → r < y + h → x ≤ c → c < x + w → occ.grid r c = false) := by
  unfold canFitAt
  by_cases hb : x < 0 ∨ y < 0 ∨ occ.cols < x + w ∨ occ.rows < y + h
  · simp only [hb, if_true]
    constructor
    · intro hfalse; cases hfalse
    · rintro ⟨h1, h2, h3, h4, -⟩; omega
  · simp only [hb, if_false, List.all_eq_true]
    push_neg at hb
    constructor
    · intro hall
      refine ⟨by omega, by omega, by omega, by omega, ?_⟩
      intro r c hr1 hr2 hc1 hc2
      have := hall r (mem_intRange.mpr ⟨hr1, hr2⟩) c (mem_intRange.mpr ⟨hc1, hc2⟩)
      simpa using this
    · rintro ⟨-, -, -, -, hcell⟩ r hr c hc
      rw [mem_intRange] at hr hc
      simp [hcell r c hr.1 hr.2 hc.1 hc.2]

/-- Membership in `findFirstFitPosition`'s scan. -/
theorem mem_fitScan {occ : OccupancyGrid} {w h : Int} {p : Int × Int} :
    p ∈ fitScan occ w h ↔
      0 ≤ p.1 ∧ p.1 ≤ occ.cols - w ∧ 0 ≤ p.2 ∧ p.2 ≤ occ.rows - h := by
  unfold fitScan
  simp only [List.mem_flatMap, List.mem_map, mem_intRange]
  constructor
  · rintro ⟨y, ⟨hy1, hy2⟩, x, ⟨hx1, hx2⟩, rfl⟩
    exact ⟨hx1, by omega, hy1, by omega⟩
  · rintro ⟨h1, h2, h3, h4⟩
    exact ⟨p.2, ⟨h3, by omega⟩, p.1, ⟨h1, by omega⟩, rfl⟩

/-- The scan enumerates positions in strictly increasing row-major order. -/
theorem fitScan_pairwise (occ : OccupancyGrid) (w h : Int) :
    (fitScan occ w h).Pairwise scanLt := by
  unfold fitScan
  rw [List.flatMap_def, List.pairwise_flatten]
  constructor
  · intro l hl
    rw [List.mem_map] at hl
    obtain ⟨y, -, rfl⟩ := hl
    rw [List.pairwise_map]
    exact intRange_pairwise.imp fun hab => Or.inr ⟨rfl, hab⟩
  · rw [List.pairwise_map]
    refine intRange_pairwise.imp ?_
    intro y1 y2 h12 p hp q hq
    rw [List.mem_map] at hp hq
    obtain ⟨x1, -, rfl⟩ := hp
    obtain ⟨x2, -, rfl⟩ := hq
    exact Or.inl h12

/-- `find?` on a `Pairwise R` list returns an element related to every other
match. -/
theorem find?_min_of_pairwise {α : Type} {R : α → α → Prop} {l : List α}
    (hp : l.Pairwise R) {p : α → Bool} {a : α} (ha : l.find? p = some a) :
    ∀ b ∈ l, p b = true → a = b ∨ R a b := by
  induction l with
  | nil => simp at ha
  | cons x xs ih =>
    rw [List.pairwise_cons] at hp
    by_cases hx : p x = true
    · rw [List.find?_cons_of_pos _ hx] at ha
      obtain rfl : x = a := by simpa using ha
      intro b hb hpb
      rcases List.mem_cons.mp hb with rfl | hmem
      · exact Or.inl rfl
      · exact Or.inr (hp.1 b hmem)
    · rw [List.find?_cons_of_neg _ (by simpa using hx)] at ha
      intro b hb hpb
      rcases List.mem_cons.mp hb with rfl | hmem
      · exact absurd hpb hx
      · exact ih hp.2 ha b hmem hpb

/-- **C8**: `canFitAt` is true iff the rectangle lies fully inside bounds and
covers only unoccupied cells; `findFirstFitPosition` returns a fitting position
that is minimal in row-major order (smallest `y`, then smallest `x`) among all
positions where `canFitAt` holds, and returns `none` exactly when no position
fits. -/
theorem canFitAt_findFirstFit_spec (occ : OccupancyGrid) (w h : Int) :
    (∀ x y : Int, canFitAt occ x y w h = true ↔
      (0 ≤ x ∧ 0 ≤ y ∧ x + w ≤ occ.cols ∧ y + h ≤ occ.rows ∧
       ∀ r c : Int, y ≤ r → r < y + h → x ≤ c → c < x + w → occ.grid r c = false)) ∧
    (∀ p : Int × Int, findFirstFitPosition occ w h = some p →
      canFitAt occ p.1 p.2 w h = true ∧
      ∀ x y : Int, canFitAt occ x y w h = true → p.2 < y ∨ (p.2 = y ∧ p.1 ≤ x)) ∧
    (findFirstFitPosition occ w h = none ↔
      ∀ x y : Int, canFitAt occ x y w h = false) := by
  have hmem_of_fit : ∀ x y : Int, canFitAt occ x y w h = true →
      ((x, y) : Int × Int) ∈ fitScan occ w h := by
    intro x y hxy
    have hb := (canFitAt_iff occ x y w h).mp hxy
    rw [mem_fitScan]
    exact ⟨hb.1, by have := hb.2.2.1; omega, hb.2.1, by have := hb.2.2.2.1; omega⟩
  refine ⟨fun x y => canFitAt_iff occ x y w h, ?_, ?_⟩
  · intro p hp
    rw [findFirstFitPosition] at hp
    have hfit := List.find?_some hp
    refine ⟨by simpa using hfit, ?_⟩
    intro x y hxy
    have hres := find?_min_of_pairwise (fitScan_pairwise occ w h) hp (x, y)
      (hmem_of_fit x y hxy) hxy
    rcases hres with heq | hlt
    · rw [heq]
      exact Or.inr ⟨rfl, le_refl x⟩
    · rcases hlt with h1 | ⟨h1, h2⟩
      · exact Or.inl h1
      · exact Or.inr ⟨h1, le_of_lt h2⟩
  · unfold findFirstFitPosition
    rw [List.find?_eq_none]
    constructor
    · intro hnone x y
      by_contra hfit
      rw [Bool.not_eq_false] at hfit
      exact hnone (x, y) (hmem_of_fit x y hfit) hfit
    · intro hall p _
      simp [hall p.1 p.2]

/-- **C8 witness**: on a `2 × 2` grid with cell `(0,0)` occupied by a `1 × 1`
widget, the spec instantiates concretely: `(1,0)` fits, and the first-fit
position `(1,0)` is row-major minimal relative to the fitting position
`(0,1)`. -/
theorem canFitAt_findFirstFit_spec_witness :
    canFitAt (createOccupancyGrid [⟨"A", 0, 0, 1, 1⟩] 2 2 none) 1 0 1 1 = true ∧
    ((0 : Int) < 1 ∨ ((0 : Int) = 1 ∧ (1 : Int) ≤ 0)) := by
  have h := canFitAt_findFirstFit_spec (createOccupancyGrid [⟨"A", 0, 0, 1, 1⟩] 2 2 none) 1 1
  have h2 := h.2.1 (1, 0) (by decide)
  exact ⟨h2.1, h2.2 0 1 (by decide)⟩

/-! ## Size signatures: id/size bookkeeping across the operations -/

theorem stableInsert_perm (lt : α → α → Bool) (a : α) (l : List α) :
    List.Perm (stableInsert lt a l) (a :: l) := by
  induction l with
  | nil => exact List.Perm.refl _
  | cons b bs ih =>
    unfold stableInsert
    split
    · exact List.Perm.refl _
    · exact (ih.cons b).trans (List.Perm.swap a b bs)

theorem stableSort_perm (lt : α → α → Bool) (l : List α) :
    List.Perm (stableSort lt l) l := by
  have go : ∀ (l acc : List α),
      List.Perm (l.foldl (fun acc a => stableInsert lt a acc) acc) (acc ++ l) := by
    intro l
    induction l with
    | nil => intro acc; simp
    | cons a as ih =>
      intro acc
      refine ((ih (stableInsert lt a acc)).trans ?_)
      refine ((stableInsert_perm lt a acc).append_right as).trans ?_
      exact List.perm_middle.symm
  simpa using go l []

theorem foldl_packStep_sig (cols maxRows : Int) (l : List GridItemLayout) :
    ∀ st : List GridItemLayout × Occ,
      ((l.foldl (packStep cols maxRows) st).1).map sizeSig =
        st.1.map sizeSig ++ l.map sizeSig := by
  induction l with
  | nil => intro st; simp
  | cons a as ih =>
    intro st
    rw [List.foldl_cons, ih]
    have hstep : ((packStep cols maxRows st a).1).map sizeSig =
        st.1.map sizeSig ++ [sizeSig a] := by
      unfold packStep
      cases findFirstFitPosition ⟨st.2, cols, maxRows⟩ a.w a.h with
      | none => simp [sizeSig]
      | some p => simp [sizeSig]
    rw [hstep]
    simp

/-- Greedy packing only moves widgets: ids and sizes are preserved in order. -/
theorem packGreedy_sig (sorted : List GridItemLayout) (cols maxRows : Int) :
    ((packGreedy sorted cols maxRows).1).map sizeSig = sorted.map sizeSig := by
  unfold packGreedy
  simpa using foldl_packStep_sig cols maxRows sorted ([], fun _ _ => false)

/-- `repackWidgets` permutes the id-and-size signatures of its input. -/
theorem repackWidgets_sig (l : List GridItemLayout) (cols maxRows : Int) :
    List.Perm ((repackWidgets l cols maxRows).map sizeSig) (l.map sizeSig) := by
  unfold repackWidgets
  split
  · exact List.Perm.refl _
  · rw [packGreedy_sig]
    exact (stableSort_perm _ _).map _

/-- A property of id-and-size signatures transfers along a signature
permutation. -/
theorem sig_forall_of_perm {P : String × Int × Int → Prop}
    {l₁ l₂ : List GridItemLayout}
    (hperm : List.Perm (l₂.map sizeSig) (l₁.map sizeSig))
    (h : ∀ r ∈ l₁, P (sizeSig r)) : ∀ r ∈ l₂, P (sizeSig r) := by
  intro r hr
  have h2 : sizeSig r ∈ l₁.map sizeSig :=
    hperm.mem_iff.mp (List.mem_map_of_mem _ hr)
  obtain ⟨r₀, hr₀, heq⟩ := List.mem_map.mp h2
  exact heq ▸ h r₀ hr₀

theorem ids_eq_sig_fst (l : List GridItemLayout) :
    l.map (fun r => r.i) = (l.map sizeSig).map Prod.fst := by
  rw [List.map_map]; rfl

theorem nodup_ids_of_sig_perm {l₁ l₂ : List GridItemLayout}
    (hperm : List.Perm (l₂.map sizeSig) (l₁.map sizeSig))
    (h : (l₁.map fun r => r.i).Nodup) : (l₂.map fun r => r.i).Nodup := by
  rw [ids_eq_sig_fst] at h ⊢
  exact ((hperm.map Prod.fst).nodup_iff).mpr h

/-- Distinct ids make the id a key: two members with equal ids are equal. -/
theorem unique_by_id {working : List GridItemLayout}
    (hN : (working.map fun r => r.i).Nodup) {a b : GridItemLayout}
    (ha : a ∈ working) (hb : b ∈ working) (h : a.i = b.i) : a = b :=
  List.inj_on_of_nodup_map hN ha hb h

/-! ## C3: repack stability -/

/-- **C3 counterexample**: repacking the valid layout `r0(0,1,2,2)`,
`r2(2,0,1,4)`, `r5(0,3,1,3)`, `r7(1,4,2,2)` on a `3 × 7` grid *increases* the
vertical extent from `6` to `7`: the optimizer only compares its five greedy
candidates against each other (`bestMaxY` starts at `Infinity`), never against
the input layout. -/
theorem repack_increases_extent :
    (∀ l ∈ c3Layouts, inBounds 3 7 l) ∧ noOverlap c3Layouts ∧
    maxYOf c3Layouts = 6 ∧
    maxYOf (repackWidgetsOptimal c3Layouts 3 7) = 7 := by
  decide

/-- One selection step never increases the tracked extent and never ends above
the new candidate's extent. -/
theorem repackSelect_step (cols maxRows : Int)
    (st : List GridItemLayout × Option Int × Int) (sorted : List GridItemLayout)
    (hInv : st.2.1 = some (maxYOf st.1)) :
    (repackSelect cols maxRows st sorted).2.1 =
      some (maxYOf (repackSelect cols maxRows st sorted).1) ∧
    maxYOf (repackSelect cols maxRows st sorted).1 ≤ maxYOf st.1 ∧
    maxYOf (repackSelect cols maxRows st sorted).1 ≤
      maxYOf (packGreedy sorted cols maxRows).1 ∧
    ((repackSelect cols maxRows st sorted).1 = st.1 ∨
     (repackSelect cols maxRows st sorted).1 = (packGreedy sorted cols maxRows).1) := by
  rcases hpg : packGreedy sorted cols maxRows with ⟨packed, g⟩
  unfold repackSelect
  rw [hpg, hInv]
  dsimp only
  split_ifs with hcond
  · refine ⟨rfl, ?_, le_refl _, Or.inr rfl⟩
    simp only [Bool.or_eq_true, Bool.and_eq_true, decide_eq_true_eq] at hcond
    rcases hcond with hlt | ⟨heq, -⟩
    · exact le_of_lt hlt
    · exact le_of_eq heq
  · refine ⟨hInv, le_refl _, ?_, Or.inl rfl⟩
    simp only [Bool.or_eq_true, Bool.and_eq_true, decide_eq_true_eq, not_or,
      not_and] at hcond
    omega

/-- The selection fold keeps the invariant and the running minimum. -/
theorem foldl_repackSelect_spec (cols maxRows : Int)
    (ss : List (List GridItemLayout)) (st : List GridItemLayout × Option Int × Int)
    (hInv : st.2.1 = some (maxYOf st.1)) :
    (ss.foldl (repackSelect cols maxRows) st).2.1 =
      some (maxYOf (ss.foldl (repackSelect cols maxRows) st).1) ∧
    maxYOf (ss.foldl (repackSelect cols maxRows) st).1 ≤ maxYOf st.1 ∧
    ((ss.foldl (repackSelect cols maxRows) st).1 = st.1 ∨
     (ss.foldl (repackSelect cols maxRows) st).1 ∈
       ss.map fun s => (packGreedy s cols maxRows).1) ∧
    ∀ s ∈ ss, maxYOf (ss.foldl (repackSelect cols maxRows) st).1 ≤
      maxYOf (packGreedy s cols maxRows).1 := by
  induction ss generalizing st with
  | nil => exact ⟨hInv, le_refl _, Or.inl rfl, by simp⟩
  | cons s rest ih =>
    have hstep := repackSelect_step cols maxRows st s hInv
    have hrec := ih (repackSelect cols maxRows st s) hstep.1
    rw [List.foldl_cons]
    refine ⟨hrec.1, le_trans hrec.2.1 hstep.2.1, ?_, ?_⟩
    · rcases hrec.2.2.1 with h1 | h1
      · rcases hstep.2.2.2 with h2 | h2
        · exact Or.inl (h1.trans h2)
        · exact Or.inr (by rw [h1, h2]; exact List.mem_cons_self _ _)
      · exact Or.inr (List.mem_cons_of_mem _ h1)
    · intro s' hs'
      rcases List.mem_cons.mp hs' with rfl | hmem
      · exact le_trans hrec.2.1 hstep.2.2.1
      · exact hrec.2.2.2 s' hmem

/-- `repackWidgetsOptimal` returns one of its five greedy candidates, with
extent minimal among them (helper shared by several results). -/
theorem repackOptimal_spec (layouts : List GridItemLayout)
    (cols maxRows : Int) (hne : layouts ≠ []) :
    repackWidgetsOptimal layouts cols maxRows ∈ repackCandidates layouts cols maxRows ∧
    ∀ c ∈ repackCandidates layouts cols maxRows,
      maxYOf (repackWidgetsOptimal layouts cols maxRows) ≤ maxYOf c := by
  have hemp : layouts.isEmpty = false := by
    cases layouts with
    | nil => exact absurd rfl hne
    | cons a l => rfl
  unfold repackWidgetsOptimal repackCandidates
  rw [hemp]
  simp only [Bool.false_eq_true, if_false]
  cases hso : strategyOrders layouts cols with
  | nil => simp [strategyOrders] at hso
  | cons s rest =>
    rw [List.foldl_cons]
    have hfirst : repackSelect cols maxRows (layouts, none, -1) s =
        ((packGreedy s cols maxRows).1,
         some (maxYOf (packGreedy s cols maxRows).1),
         countEmptyAtTop (packGreedy s cols maxRows).2
           (maxYOf (packGreedy s cols maxRows).1) maxRows cols) := by
      unfold repackSelect
      simp
    rw [hfirst]
    have hrec := foldl_repackSelect_spec cols maxRows rest
      ((packGreedy s cols maxRows).1,
       some (maxYOf (packGreedy s cols maxRows).1),
       countEmptyAtTop (packGreedy s cols maxRows).2
         (maxYOf (packGreedy s cols maxRows).1) maxRows cols) rfl
    constructor
    · rw [List.map_cons]
      rcases hrec.2.2.1 with h1 | h1
      · rw [h1]; exact List.mem_cons_self _ _
      · exact List.mem_cons_of_mem _ h1
    · intro c hc
      rw [List.map_cons, List.mem_cons] at hc
      rcases hc with rfl | hmem
      · exact hrec.2.1
      · rw [List.mem_map] at hmem
        obtain ⟨s', hs', rfl⟩ := hmem
        exact hrec.2.2.2 s' hs'

/-- `repackWidgetsOptimal` also permutes the id-and-size signatures. -/
theorem repackWidgetsOptimal_sig (l : List GridItemLayout) (cols maxRows : Int) :
    List.Perm ((repackWidgetsOptimal l cols maxRows).map sizeSig) (l.map sizeSig) := by
  by_cases h : l = []
  · subst h
    simp [repackWidgetsOptimal]
  · have hs := (repackOptimal_spec l cols maxRows h).1
    unfold repackCandidates at hs
    rw [List.mem_map] at hs
    obtain ⟨sorted, hsorted, heq⟩ := hs
    rw [← heq, packGreedy_sig]
    have hperm : List.Perm sorted l := by
      simp only [strategyOrders, List.mem_cons, List.not_mem_nil, or_false] at hsorted
      rcases hsorted with rfl | rfl | rfl | rfl | rfl <;> exact stableSort_perm _ _
    exact hperm.map _

/-- **C3** (amended): `repackWidgetsOptimal` returns one of its five greedy
candidate packings, and its vertical extent is the minimum over those five
candidates — but the input layout is not among the candidates, so (as the
counterexample shows) the result's extent can exceed the input's. -/
theorem repackWidgetsOptimal_min_over_candidates (layouts : List GridItemLayout)
    (cols maxRows : Int) (hne : layouts ≠ []) :
    repackWidgetsOptimal layouts cols maxRows ∈ repackCandidates layouts cols maxRows ∧
    ∀ c ∈ repackCandidates layouts cols maxRows,
      maxYOf (repackWidgetsOptimal layouts cols maxRows) ≤ maxYOf c :=
  repackOptimal_spec layouts cols maxRows hne

/-- **C3 witness**: the amended claim instantiated on the counterexample
layout. -/
theorem repackWidgetsOptimal_min_over_candidates_witness :
    repackWidgetsOptimal c3Layouts 3 7 ∈ repackCandidates c3Layouts 3 7 ∧
    ∀ c ∈ repackCandidates c3Layouts 3 7,
      maxYOf (repackWidgetsOptimal c3Layouts 3 7) ≤ maxYOf c :=
  repackWidgetsOptimal_min_over_candidates c3Layouts 3 7 (by decide)

/-! ## Shrink bookkeeping: no shrink step ever undershoots the lookup minimum -/

theorem shrinkOk_base (widgetMinSizes : WidgetMinSizes) (orig : List GridItemLayout) :
    ∀ r ∈ orig, shrinkOk widgetMinSizes orig (sizeSig r) :=
  fun r hr => ⟨r, hr, rfl, Or.inl rfl, Or.inl rfl⟩

theorem map_sig_eq {working : List GridItemLayout} {f : GridItemLayout → GridItemLayout}
    (hf : ∀ l ∈ working, sizeSig (f l) = sizeSig l) :
    (working.map f).map sizeSig = working.map sizeSig := by
  rw [List.map_map]
  exact List.map_congr_left hf

theorem map_ids_eq {working : List GridItemLayout} {f : GridItemLayout → GridItemLayout}
    (hf : ∀ l ∈ working, (f l).i = l.i) :
    (working.map f).map (fun r => r.i) = working.map fun r => r.i := by
  rw [List.map_map]
  exact List.map_congr_left hf

/-- Phase 1 of the resize only moves widgets: signatures are unchanged. -/
theorem resizePhase1_sig (newBounds : GridZone) (resizingId : String)
    (cols maxRows : Int) :
    ∀ (affected working : List GridItemLayout),
      ((resizePhase1 affected working newBounds resizingId cols maxRows).1).map sizeSig =
        working.map sizeSig := by
  intro affected
  induction affected with
  | nil => intro working; rfl
  | cons widget rest ih =>
    intro working
    unfold resizePhase1
    dsimp only
    split
    · rw [ih]
      exact map_sig_eq fun l _ => by unfold sizeSig; split <;> rfl
    · exact ih working

/-- Phase 2 of the resize preserves `shrinkOk` (and the distinct-id property)
on success: every shrink is guarded by the lookup minimum. -/
theorem resizePhase2_shrinkOk (widgetMinSizes : WidgetMinSizes) (newBounds : GridZone)
    (orig : List GridItemLayout) :
    ∀ (still working : List GridItemLayout) (shrunk : List String)
      (wk : List GridItemLayout) (sh : List String),
      (working.map fun r => r.i).Nodup →
      (∀ r ∈ working, shrinkOk widgetMinSizes orig (sizeSig r)) →
      resizePhase2 still working shrunk newBounds widgetMinSizes = some (wk, sh) →
      (∀ r ∈ wk, shrinkOk widgetMinSizes orig (sizeSig r)) ∧
      (wk.map fun r => r.i).Nodup := by
  intro still
  induction still with
  | nil =>
    intro working shrunk wk sh hN hP h
    unfold resizePhase2 at h
    obtain ⟨rfl, -⟩ : working = wk ∧ shrunk = sh := by
      constructor <;> [exact congrArg Prod.fst (Option.some.inj h);
        exact congrArg Prod.snd (Option.some.inj h)]
    exact ⟨hP, hN⟩
  | cons widget rest ih =>
    intro working shrunk wk sh hN hP h
    unfold resizePhase2 at h
    cases hfind : working.find? (fun l => decide (l.i = widget.i)) with
    | none =>
      rw [hfind] at h
      exact ih working shrunk wk sh hN hP h
    | some currentWidget =>
      rw [hfind] at h
      dsimp only at h
      have hcur_mem := List.mem_of_find?_eq_some hfind
      have hcur_id : currentWidget.i = widget.i := by
        have := List.find?_some hfind
        simpa using this
      have hstep : ∀ (f : GridItemLayout → GridItemLayout),
          (∀ l, l.i ≠ widget.i → f l = l) →
          (∀ l, l.i = widget.i → (f l).i = l.i) →
          (shrinkOk widgetMinSizes orig (sizeSig (f currentWidget))) →
          (∀ r ∈ working.map f, shrinkOk widgetMinSizes orig (sizeSig r)) ∧
          ((working.map f).map fun r => r.i).Nodup := by
        intro f hskip hid hcurOk
        constructor
        · intro r hr
          rw [List.mem_map] at hr
          obtain ⟨l, hl, rfl⟩ := hr
          by_cases hli : l.i = widget.i
          · have : l = currentWidget :=
              unique_by_id hN hl hcur_mem (hli.trans hcur_id.symm)
            subst this
            exact hcurOk
          · rw [hskip l hli]
            exact hP l hl
        · rw [map_ids_eq]
          · exact hN
          · intro l _
            by_cases hli : l.i = widget.i
            · exact hid l hli
            · rw [hskip l hli]
      split_ifs at h with h1 h2 h3 h4
      · -- shrink from the left: x += overlapRight, w -= overlapRight
        refine ih _ _ wk sh (hstep _ (fun l hli => by simp [hli])
          (fun l hli => by simp [hli]) ?_).2
          (hstep _ (fun l hli => by simp [hli]) (fun l hli => by simp [hli]) ?_).1 h <;>
        · rw [if_pos hcur_id]
          obtain ⟨r₀, hr₀, hid', hw, hh⟩ := hP currentWidget hcur_mem
          exact ⟨r₀, hr₀, hid', Or.inr (by simpa [sizeSig, hcur_id] using h1.2),
            by simpa [sizeSig] using hh⟩
      · -- shrink from the top: y += overlapBottom, h -= overlapBottom
        refine ih _ _ wk sh (hstep _ (fun l hli => by simp [hli])
          (fun l hli => by simp [hli]) ?_).2
          (hstep _ (fun l hli => by simp [hli]) (fun l hli => by simp [hli]) ?_).1 h <;>
        · rw [if_pos hcur_id]
          obtain ⟨r₀, hr₀, hid', hw, hh⟩ := hP currentWidget hcur_mem
          exact ⟨r₀, hr₀, hid', by simpa [sizeSig] using hw,
            Or.inr (by simpa [sizeSig, hcur_id] using h2.2)⟩
      · -- shrink from the right: w -= overlapLeft
        refine ih _ _ wk sh (hstep _ (fun l hli => by simp [hli])
          (fun l hli => by simp [hli]) ?_).2
          (hstep _ (fun l hli => by simp [hli]) (fun l hli => by simp [hli]) ?_).1 h <;>
        · rw [if_pos hcur_id]
          obtain ⟨r₀, hr₀, hid', hw, hh⟩ := hP currentWidget hcur_mem
          exact ⟨r₀, hr₀, hid', Or.inr (by simpa [sizeSig, hcur_id] using h3.2),
            by simpa [sizeSig] using hh⟩
      · -- shrink from the bottom: h -= overlapTop
        refine ih _ _ wk sh (hstep _ (fun l hli => by simp [hli])
          (fun l hli => by simp [hli]) ?_).2
          (hstep _ (fun l hli => by simp [hli]) (fun l hli => by simp [hli]) ?_).1 h <;>
        · rw [if_pos hcur_id]
          obtain ⟨r₀, hr₀, hid', hw, hh⟩ := hP currentWidget hcur_mem
          exact ⟨r₀, hr₀, hid', by simpa [sizeSig] using hw,
            Or.inr (by simpa [sizeSig, hcur_id] using h4.2)⟩

/-- A successful resize leaves every widget other than the resized one with a
`shrinkOk` signature relative to the input layout. -/
theorem calculateResizeSpace_shrinkOk (layouts : List GridItemLayout)
    (resizingId : String) (newX newY newW newH cols maxRows : Int)
    (widgetMinSizes : WidgetMinSizes)
    (hN : (layouts.map fun r => r.i).Nodup) :
    ∀ r' ∈ (calculateResizeSpace layouts resizingId newX newY newW newH cols maxRows
        widgetMinSizes).newLayouts, r'.i ≠ resizingId →
      shrinkOk widgetMinSizes layouts (sizeSig r') := by
  have hmap_case : ∀ (wk : List GridItemLayout),
      (∀ r ∈ wk, shrinkOk widgetMinSizes layouts (sizeSig r)) →
      ∀ r' ∈ wk.map (fun l =>
        if l.i = resizingId then { l with x := newX, y := newY, w := newW, h := newH }
        else l), r'.i ≠ resizingId → shrinkOk widgetMinSizes layouts (sizeSig r') := by
    intro wk hwk r' hr' hne
    rw [List.mem_map] at hr'
    obtain ⟨l, hl, rfl⟩ := hr'
    by_cases hli : l.i = resizingId
    · rw [if_pos hli] at hne ⊢
      exact absurd hli hne
    · rw [if_neg hli]
      exact hwk l hl
  unfold calculateResizeSpace
  cases hfind : layouts.find? (fun l => decide (l.i = resizingId)) with
  | none =>
    intro r' hr' hne
    exact shrinkOk_base _ _ r' hr'
  | some rw0 =>
    dsimp only
    split_ifs with hbounds hemp hstill
    · exact fun r' hr' _ => shrinkOk_base _ _ r' hr'
    · exact hmap_case layouts (shrinkOk_base _ _)
    · -- phase 1 succeeded for everyone
      refine hmap_case _ ?_
      refine sig_forall_of_perm (P := shrinkOk widgetMinSizes layouts) ?_
        (shrinkOk_base _ _)
      exact List.Perm.of_eq (resizePhase1_sig _ _ _ _ _ _)
    · -- phase 2 ran
      cases hph2 : resizePhase2
          (stableSort areaGt (resizePhase1 (layouts.filter fun l =>
              decide (l.i ≠ resizingId) &&
                zonesOverlap (zoneOf l) ⟨newX, newY, newW, newH⟩) layouts
            ⟨newX, newY, newW, newH⟩ resizingId cols maxRows).2.2)
          (resizePhase1 (layouts.filter fun l =>
              decide (l.i ≠ resizingId) &&
                zonesOverlap (zoneOf l) ⟨newX, newY, newW, newH⟩) layouts
            ⟨newX, newY, newW, newH⟩ resizingId cols maxRows).1
          [] ⟨newX, newY, newW, newH⟩ widgetMinSizes with
      | none =>
        exact fun r' hr' _ => shrinkOk_base _ _ r' hr'
      | some pr =>
        have hsig := resizePhase1_sig ⟨newX, newY, newW, newH⟩ resizingId cols maxRows
          (layouts.filter fun l =>
            decide (l.i ≠ resizingId) &&
              zonesOverlap (zoneOf l) ⟨newX, newY, newW, newH⟩) layouts
        have hN1 : (((resizePhase1 (layouts.filter fun l =>
            decide (l.i ≠ resizingId) &&
              zonesOverlap (zoneOf l) ⟨newX, newY, newW, newH⟩) layouts
          ⟨newX, newY, newW, newH⟩ resizingId cols maxRows).1).map fun r => r.i).Nodup :=
          nodup_ids_of_sig_perm (List.Perm.of_eq hsig) hN
        have hP1 := sig_forall_of_perm (P := shrinkOk widgetMinSizes layouts)
          (List.Perm.of_eq hsig) (shrinkOk_base _ _)
        have hres2 := resizePhase2_shrinkOk widgetMinSizes ⟨newX, newY, newW, newH⟩
          layouts _ _ [] pr.1 pr.2 hN1 hP1 (by rw [hph2])
        exact hmap_case pr.1 hres2.1

/-- What came out of one phase-3 candidate scan step. -/
theorem pickStep_spec (widgetMinSizes : WidgetMinSizes) (best : Option ShrinkCandidate)
    (l : GridItemLayout) (c : ShrinkCandidate) (h : pickStep widgetMinSizes best l = some c) :
    best = some c ∨ (c.id = l.i ∧
      (c.shrinkW = true → (lookupMinSize widgetMinSizes l.i).minW < l.w) ∧
      (c.shrinkW = false → (lookupMinSize widgetMinSizes l.i).minH < l.h)) := by
  unfold pickStep at h
  dsimp only at h
  split_ifs at h with h1 h2 h3 <;>
    first
    | (obtain rfl : (⟨l.i, false, _, _⟩ : ShrinkCandidate) = c := Option.some.inj h
       refine Or.inr ⟨rfl, by simp, fun _ => ?_⟩
       simp only [Bool.and_eq_true, decide_eq_true_eq] at *
       omega)
    | (obtain rfl : (⟨l.i, true, _, _⟩ : ShrinkCandidate) = c := Option.some.inj h
       refine Or.inr ⟨rfl, fun _ => ?_, by simp⟩
       simp only [Bool.and_eq_true, decide_eq_true_eq] at *
       omega)
    | exact Or.inl h

/-- A returned phase-3 candidate points at a real widget with shrink room in
the chosen dimension. -/
theorem pickShrinkCandidate_spec (widgetMinSizes : WidgetMinSizes)
    (working : List GridItemLayout) (c : ShrinkCandidate)
    (h : pickShrinkCandidate working widgetMinSizes = some c) :
    ∃ l₀ ∈ working, c.id = l₀.i ∧
      (c.shrinkW = true → (lookupMinSize widgetMinSizes l₀.i).minW < l₀.w) ∧
      (c.shrinkW = false → (lookupMinSize widgetMinSizes l₀.i).minH < l₀.h) := by
  have aux : ∀ (ww : List GridItemLayout) (acc : Option ShrinkCandidate),
      ww.foldl (pickStep widgetMinSizes) acc = some c →
      acc = some c ∨ ∃ l₀ ∈ ww, c.id = l₀.i ∧
        (c.shrinkW = true → (lookupMinSize widgetMinSizes l₀.i).minW < l₀.w) ∧
        (c.shrinkW = false → (lookupMinSize widgetMinSizes l₀.i).minH < l₀.h) := by
    intro ww
    induction ww with
    | nil => intro acc h'; exact Or.inl h'
    | cons a rest ih =>
      intro acc h'
      rw [List.foldl_cons] at h'
      rcases ih (pickStep widgetMinSizes acc a) h' with h'' | h''
      · rcases pickStep_spec widgetMinSizes acc a c h'' with h3 | h3
        · exact Or.inl h3
        · exact Or.inr ⟨a, List.mem_cons_self _ _, h3⟩
      · obtain ⟨l₀, hl₀, hprop⟩ := h''
        exact Or.inr ⟨l₀, List.mem_cons_of_mem _ hl₀, hprop⟩
  rcases aux working none h with h' | h'
  · cases h'
  · exact h'

/-- The phase-3 one-unit shrink keeps `shrinkOk` and distinct ids. -/
theorem shrinkById_shrinkOk (widgetMinSizes : WidgetMinSizes)
    (orig working : List GridItemLayout) (c : ShrinkCandidate)
    (hN : (working.map fun r => r.i).Nodup)
    (hP : ∀ r ∈ working, shrinkOk widgetMinSizes orig (sizeSig r))
    (hc : ∃ l₀ ∈ working, c.id = l₀.i ∧
      (c.shrinkW = true → (lookupMinSize widgetMinSizes l₀.i).minW < l₀.w) ∧
      (c.shrinkW = false → (lookupMinSize widgetMinSizes l₀.i).minH < l₀.h)) :
    (∀ r ∈ shrinkById working c, shrinkOk widgetMinSizes orig (sizeSig r)) ∧
    ((shrinkById working c).map fun r => r.i).Nodup := by
  obtain ⟨l₀, hl₀, hid, hgw, hgh⟩ := hc
  constructor
  · intro r hr
    unfold shrinkById at hr
    rw [List.mem_map] at hr
    obtain ⟨l, hl, rfl⟩ := hr
    by_cases hli : l.i = c.id
    · have hll : l = l₀ := unique_by_id hN hl hl₀ (by rw [hli, hid])
      subst hll
      rw [if_pos hli]
      obtain ⟨r₀, hr₀, hid', hw, hh⟩ := hP l hl
      cases hcw : c.shrinkW
      · simp only [hcw, Bool.false_eq_true, if_false]
        refine ⟨r₀, hr₀, hid', by simpa [sizeSig] using hw, Or.inr ?_⟩
        have := hgh hcw
        simp only [sizeSig]
        rw [hli] at this ⊢
        omega
      · simp only [hcw, if_true]
        refine ⟨r₀, hr₀, hid', Or.inr ?_, by simpa [sizeSig] using hh⟩
        have := hgw hcw
        simp only [sizeSig]
        rw [hli] at this ⊢
        omega
    · rw [if_neg hli]
      exact hP l hl
  · unfold shrinkById
    rw [map_ids_eq]
    · exact hN
    · intro l _
      by_cases hli : l.i = c.id
      · rw [if_pos hli]
        cases c.shrinkW <;> simp
      · rw [if_neg hli]

/-- The phase-4 shrink-to-minimum satisfies `shrinkOk` outright. -/
theorem shrinkAllToMin_shrinkOk (widgetMinSizes : WidgetMinSizes)
    (orig working : List GridItemLayout)
    (hP : ∀ r ∈ working, shrinkOk widgetMinSizes orig (sizeSig r)) :
    ∀ r ∈ shrinkAllToMin working widgetMinSizes,
      shrinkOk widgetMinSizes orig (sizeSig r) := by
  intro r hr
  unfold shrinkAllToMin at hr
  rw [List.mem_map] at hr
  obtain ⟨l, hl, rfl⟩ := hr
  obtain ⟨r₀, hr₀, hid, -, -⟩ := hP l hl
  exact ⟨r₀, hr₀, hid, Or.inr (le_refl _), Or.inr (le_refl _)⟩

/-- Phase 3 preserves `shrinkOk` throughout. -/
theorem autoAdjustPhase3_shrinkOk (widgetMinSizes : WidgetMinSizes)
    (orig : List GridItemLayout) (newWidgetW newWidgetH cols maxRows : Int) :
    ∀ (fuel : Nat) (working : List GridItemLayout) (shrunk : List String),
      ((working.map fun r => r.i).Nodup) →
      (∀ r ∈ working, shrinkOk widgetMinSizes orig (sizeSig r)) →
      phase3Good widgetMinSizes orig
        (autoAdjustPhase3 fuel working shrunk newWidgetW newWidgetH cols maxRows
          widgetMinSizes) := by
  intro fuel
  induction fuel with
  | zero => intro working shrunk hN hP; exact ⟨hP, hN⟩
  | succ fuel ih =>
    intro working shrunk hN hP
    unfold autoAdjustPhase3
    cases hpick : pickShrinkCandidate working widgetMinSizes with
    | none => exact ⟨hP, hN⟩
    | some c =>
      dsimp only
      have hsh := shrinkById_shrinkOk widgetMinSizes orig working c hN hP
        (pickShrinkCandidate_spec widgetMinSizes working c hpick)
      have hPp : ∀ r ∈ repackWidgets (shrinkById working c) cols maxRows,
          shrinkOk widgetMinSizes orig (sizeSig r) :=
        sig_forall_of_perm (repackWidgets_sig _ _ _) hsh.1
      have hPo : ∀ r ∈ repackWidgetsOptimal (shrinkById working c) cols maxRows,
          shrinkOk widgetMinSizes orig (sizeSig r) :=
        sig_forall_of_perm (repackWidgetsOptimal_sig _ _ _) hsh.1
      cases hf1 : findFirstFitPosition
          (createOccupancyGrid (repackWidgets (shrinkById working c) cols maxRows)
            cols maxRows none) newWidgetW newWidgetH with
      | some p => exact hPp
      | none =>
        cases hf2 : findFirstFitPosition
            (createOccupancyGrid
              (repackWidgetsOptimal (shrinkById working c) cols maxRows)
              cols maxRows none) newWidgetW newWidgetH with
        | some p => exact hPo
        | none =>
          exact ih (repackWidgetsOptimal (shrinkById working c) cols maxRows)
            (addShrunk shrunk c.id)
            (nodup_ids_of_sig_perm (repackWidgetsOptimal_sig _ _ _) hsh.2) hPo

/-- Every layout returned by the auto-adjust controller is `shrinkOk` relative
to the input. -/
theorem calculateAutoAdjust_shrinkOk (layouts : List GridItemLayout)
    (newWidgetW newWidgetH cols maxRows : Int) (widgetMinSizes : WidgetMinSizes)
    (hN : (layouts.map fun r => r.i).Nodup) :
    ∀ r' ∈ (calculateAutoAdjustForNewWidget layouts newWidgetW newWidgetH cols maxRows
        widgetMinSizes).adjustedLayouts,
      shrinkOk widgetMinSizes layouts (sizeSig r') := by
  unfold calculateAutoAdjustForNewWidget
  cases hf1 : findFirstFitPosition (createOccupancyGrid layouts cols maxRows none)
      newWidgetW newWidgetH with
  | some p => exact shrinkOk_base _ _
  | none =>
    dsimp only
    cases hf2 : findFirstFitPosition
        (createOccupancyGrid (repackWidgetsOptimal layouts cols maxRows) cols maxRows none)
        newWidgetW newWidgetH with
    | some p =>
      exact sig_forall_of_perm (repackWidgetsOptimal_sig _ _ _) (shrinkOk_base _ _)
    | none =>
      dsimp only
      split_ifs with hcap
      · exact shrinkOk_base _ _
      · have h3 := autoAdjustPhase3_shrinkOk widgetMinSizes layouts newWidgetW newWidgetH
          cols maxRows 200 layouts [] hN (shrinkOk_base _ _)
        cases h3eq : autoAdjustPhase3 200 layouts [] newWidgetW newWidgetH cols maxRows
            widgetMinSizes with
        | inl res =>
          rw [h3eq] at h3
          exact h3
        | inr pr =>
          rw [h3eq] at h3
          dsimp only
          have hmin : ∀ r ∈ repackWidgetsOptimal (shrinkAllToMin pr.1 widgetMinSizes)
              cols maxRows, shrinkOk widgetMinSizes layouts (sizeSig r) :=
            sig_forall_of_perm (repackWidgetsOptimal_sig _ _ _)
              (shrinkAllToMin_shrinkOk widgetMinSizes layouts pr.1 h3.1)
          cases hf3 : findFirstFitPosition
              (createOccupancyGrid
                (repackWidgetsOptimal (shrinkAllToMin pr.1 widgetMinSizes) cols maxRows)
                cols maxRows none) newWidgetW newWidgetH with
          | some p => exact hmin
          | none => exact shrinkOk_base _ _

/-! ## C6: the min-size invariant -/

/-- **C6 counterexample**: resizing `X(0,0,3,3)` to `1 × 1` (below its table
minimum `2 × 2`) *succeeds*: `calculateResizeSpace` never checks the resized
widget's own new size against its minimum, so the returned layout contains a
rect whose id is in the table with `w = 1 < minW = 2`. -/
theorem resize_below_min_counterexample :
    calculateResizeSpace c6Layouts "X" 0 0 1 1 12 10 c6Table =
      { canResize := true, newLayouts := [⟨"X", 0, 0, 1, 1⟩],
        movedWidgets := [], shrunkWidgets := [] } ∧
    c6Table "X" = some ⟨2, 2⟩ ∧ ¬ minOk c6Table ⟨"X", 0, 0, 1, 1⟩ := by
  decide

/-- **C6** (amended): for layouts with distinct ids whose rects all meet their
table minima, a successful `calculateResizeSpace` keeps every rect *other than
the resized widget itself* at or above its table minimum, and a
`calculateAutoAdjustForNewWidget` result keeps every rect at or above its table
minimum.  (The resized widget must be excluded: its new size is the
caller-supplied input, applied unchecked, as the counterexample shows.) -/
theorem min_size_invariant_amended :
    (∀ (layouts : List GridItemLayout) (resizingId : String)
       (newX newY newW newH cols maxRows : Int) (widgetMinSizes : WidgetMinSizes),
       (layouts.map fun r => r.i).Nodup →
       (∀ r ∈ layouts, minOk widgetMinSizes r) →
       ∀ r' ∈ (calculateResizeSpace layouts resizingId newX newY newW newH cols maxRows
           widgetMinSizes).newLayouts,
         r'.i ≠ resizingId → minOk widgetMinSizes r') ∧
    (∀ (layouts : List GridItemLayout) (newWidgetW newWidgetH cols maxRows : Int)
       (widgetMinSizes : WidgetMinSizes),
       (layouts.map fun r => r.i).Nodup →
       (∀ r ∈ layouts, minOk widgetMinSizes r) →
       ∀ r' ∈ (calculateAutoAdjustForNewWidget layouts newWidgetW newWidgetH cols maxRows
           widgetMinSizes).adjustedLayouts,
         minOk widgetMinSizes r') := by
  have key : ∀ (table : WidgetMinSizes) (orig : List GridItemLayout)
      (s : String × Int × Int),
      (∀ r ∈ orig, minOk table r) → shrinkOk table orig s → minOkSig table s := by
    rintro table orig s hmin ⟨r₀, hr₀, hid, hw, hh⟩
    unfold minOkSig
    cases ht : table s.1 with
    | none => trivial
    | some m =>
      have hm0 := hmin r₀ hr₀
      unfold minOk minOkSig at hm0
      have hts : table r₀.i = some m := by rw [hid]; exact ht
      rw [show (sizeSig r₀).1 = r₀.i from rfl, hts] at hm0
      have hlook : lookupMinSize table s.1 = m := by
        unfold lookupMinSize; rw [ht]; rfl
      constructor
      · rcases hw with h | h
        · rw [h]; exact hm0.1
        · rw [hlook] at h; exact h
      · rcases hh with h | h
        · rw [h]; exact hm0.2
        · rw [hlook] at h; exact h
  constructor
  · intro layouts resizingId newX newY newW newH cols maxRows widgetMinSizes hN hmin r' hr' hne
    exact key widgetMinSizes layouts (sizeSig r') hmin
      (calculateResizeSpace_shrinkOk layouts resizingId newX newY newW newH cols maxRows
        widgetMinSizes hN r' hr' hne)
  · intro layouts newWidgetW newWidgetH cols maxRows widgetMinSizes hN hmin r' hr'
    exact key widgetMinSizes layouts (sizeSig r') hmin
      (calculateAutoAdjust_shrinkOk layouts newWidgetW newWidgetH cols maxRows
        widgetMinSizes hN r' hr')

/-- **C6 witness**: resizing `X(0,0,3,3)` to `4 × 4` next to `Y(3,0,3,3)` moves
`Y` to `(4,0)`; the amended claim yields that `Y` still meets its minimum. -/
theorem min_size_invariant_amended_witness : minOk c6Table ⟨"Y", 4, 0, 3, 3⟩ :=
  min_size_invariant_amended.1 [⟨"X", 0, 0, 3, 3⟩, ⟨"Y", 3, 0, 3, 3⟩] "X"
    0 0 4 4 12 10 c6Table (by decide) (by decide) ⟨"Y", 4, 0, 3, 3⟩ (by decide)
    (by decide)

/-! ## C10: the 2 × 2 default for ids absent from the table -/

/-- **C10**: a rect whose id is absent from the minimum-size table is treated
as having minimum size `2 × 2`:
(1) a successful resize never shrinks such a rect (other than the resized
widget, whose new size is the caller-supplied input) below `2` in either
dimension — each dimension is either unchanged from the input or at least `2`;
(2) likewise for every rect of an auto-adjust result;
(3) the feasibility precheck counts `2 · 2 = 4` cells of minimum area for every
such rect;
(4) the phase-4 shrink-everything step sets such a rect's size to exactly
`2 × 2`. -/
theorem default_min_size_two :
    (∀ (layouts : List GridItemLayout) (resizingId : String)
       (newX newY newW newH cols maxRows : Int) (widgetMinSizes : WidgetMinSizes),
       (layouts.map fun r => r.i).Nodup →
       ∀ r' ∈ (calculateResizeSpace layouts resizingId newX newY newW newH cols maxRows
           widgetMinSizes).newLayouts,
         r'.i ≠ resizingId → widgetMinSizes r'.i = none →
         ∃ r₀ ∈ layouts, r₀.i = r'.i ∧ (r'.w = r₀.w ∨ 2 ≤ r'.w) ∧
           (r'.h = r₀.h ∨ 2 ≤ r'.h)) ∧
    (∀ (layouts : List GridItemLayout) (newWidgetW newWidgetH cols maxRows : Int)
       (widgetMinSizes : WidgetMinSizes),
       (layouts.map fun r => r.i).Nodup →
       ∀ r' ∈ (calculateAutoAdjustForNewWidget layouts newWidgetW newWidgetH cols maxRows
           widgetMinSizes).adjustedLayouts,
         widgetMinSizes r'.i = none →
         ∃ r₀ ∈ layouts, r₀.i = r'.i ∧ (r'.w = r₀.w ∨ 2 ≤ r'.w) ∧
           (r'.h = r₀.h ∨ 2 ≤ r'.h)) ∧
    (∀ (layouts : List GridItemLayout) (widgetMinSizes : WidgetMinSizes),
       (∀ l ∈ layouts, widgetMinSizes l.i = none) →
       minPossibleUsage layouts widgetMinSizes = 4 * (layouts.length : Int)) ∧
    (∀ (working : List GridItemLayout) (widgetMinSizes : WidgetMinSizes),
       ∀ r ∈ shrinkAllToMin working widgetMinSizes,
         widgetMinSizes r.i = none → r.w = 2 ∧ r.h = 2) := by
  have key : ∀ (table : WidgetMinSizes) (orig : List GridItemLayout)
      (s : String × Int × Int), table s.1 = none → shrinkOk table orig s →
      ∃ r₀ ∈ orig, r₀.i = s.1 ∧ (s.2.1 = r₀.w ∨ 2 ≤ s.2.1) ∧
        (s.2.2 = r₀.h ∨ 2 ≤ s.2.2) := by
    rintro table orig s ht ⟨r₀, hr₀, hid, hw, hh⟩
    have hlook : lookupMinSize table s.1 = ⟨2, 2⟩ := by
      unfold lookupMinSize; rw [ht]; rfl
    rw [hlook] at hw hh
    exact ⟨r₀, hr₀, hid, hw, hh⟩
  refine ⟨?_, ?_, ?_, ?_⟩
  · intro layouts resizingId newX newY newW newH cols maxRows widgetMinSizes hN r' hr' hne ht
    exact key widgetMinSizes layouts (sizeSig r') ht
      (calculateResizeSpace_shrinkOk layouts resizingId newX newY newW newH cols maxRows
        widgetMinSizes hN r' hr' hne)
  · intro layouts newWidgetW newWidgetH cols maxRows widgetMinSizes hN r' hr' ht
    exact key widgetMinSizes layouts (sizeSig r') ht
      (calculateAutoAdjust_shrinkOk layouts newWidgetW newWidgetH cols maxRows
        widgetMinSizes hN r' hr')
  · intro layouts widgetMinSizes hall
    have go : ∀ (ls : List GridItemLayout) (acc : Int),
        (∀ l ∈ ls, widgetMinSizes l.i = none) →
        (ls.foldl (fun s l =>
          let m := lookupMinSize widgetMinSizes l.i; s + m.minW * m.minH) acc) =
          acc + 4 * (ls.length : Int) := by
      intro ls
      induction ls with
      | nil => intro acc _; simp
      | cons a rest ih =>
        intro acc hall'
        rw [List.foldl_cons, ih _ (fun l hl => hall' l (List.mem_cons_of_mem _ hl))]
        have hla : lookupMinSize widgetMinSizes a.i = ⟨2, 2⟩ := by
          unfold lookupMinSize; rw [hall' a (List.mem_cons_self _ _)]; rfl
        rw [hla]
        simp only [List.length_cons]
        push_cast
        ring
    unfold minPossibleUsage
    rw [go layouts 0 hall]
    ring
  · intro working widgetMinSizes r hr ht
    unfold shrinkAllToMin at hr
    rw [List.mem_map] at hr
    obtain ⟨l, hl, rfl⟩ := hr
    have : widgetMinSizes l.i = none := ht
    have hla : lookupMinSize widgetMinSizes l.i = ⟨2, 2⟩ := by
      unfold lookupMinSize; rw [this]; rfl
    rw [hla]
    exact ⟨rfl, rfl⟩

/-- **C10 witness**: the table-absent default instantiated concretely: the
feasibility precheck counts `4` per widget, and the shrink-all phase lands on
exactly `2 × 2`. -/
theorem default_min_size_two_witness :
    minPossibleUsage [⟨"A", 0, 0, 3, 3⟩, ⟨"B", 3, 0, 5, 4⟩] (fun _ => none) =
      4 * (([⟨"A", 0, 0, 3, 3⟩, ⟨"B", 3, 0, 5, 4⟩] :
        List GridItemLayout).length : Int) ∧
    ((⟨"A", 0, 0, 2, 2⟩ : GridItemLayout).w = 2 ∧
     (⟨"A", 0, 0, 2, 2⟩ : GridItemLayout).h = 2) :=
  ⟨default_min_size_two.2.2.1 _ (fun _ => none) (fun _ _ => rfl),
   default_min_size_two.2.2.2 [⟨"A", 0, 0, 5, 7⟩] (fun _ => none) ⟨"A", 0, 0, 2, 2⟩
     (by decide) rfl⟩

/-! ## C4 support: sizes and bounds through the swap pipeline -/

theorem clampToViewport_spec (x y w h cols maxRows : Int) :
    0 ≤ (clampToViewport x y w h cols maxRows).1 ∧
    0 ≤ (clampToViewport x y w h cols maxRows).2 ∧
    (w ≤ cols → (clampToViewport x y w h cols maxRows).1 + w ≤ cols) ∧
    (h ≤ maxRows → (clampToViewport x y w h cols maxRows).2 + h ≤ maxRows) := by
  unfold clampToViewport
  dsimp only
  split_ifs <;> refine ⟨by omega, by omega, fun _ => by omega, fun _ => by omega⟩

theorem foldl_adjustStep_sig (cols maxRows : Int) (l : List GridItemLayout) :
    ∀ st : Occ × List GridItemLayout,
      ((l.foldl (adjustStep cols maxRows) st).2).map sizeSig =
        st.2.map sizeSig ++ l.map sizeSig := by
  induction l with
  | nil => intro st; simp
  | cons a as ih =>
    intro st
    rw [List.foldl_cons, ih]
    have hstep : ((adjustStep cols maxRows st a).2).map sizeSig =
        st.2.map sizeSig ++ [sizeSig a] := by
      unfold adjustStep
      dsimp only
      split
      · simp [sizeSig]
      · split
        · simp [sizeSig]
        · split
          · simp [sizeSig]
          · simp [sizeSig]
    rw [hstep]
    simp

/-- The viewport adjustment pass permutes the id-and-size signatures. -/
theorem adjustLayoutsToViewport_sig (l : List GridItemLayout) (cols maxRows : Int) :
    List.Perm ((adjustLayoutsToViewport l cols maxRows).map sizeSig) (l.map sizeSig) := by
  unfold adjustLayoutsToViewport
  dsimp only
  refine (List.Perm.of_eq (map_sig_eq (f := fun l =>
      { i := l.i, x := (clampToViewport l.x l.y l.w l.h cols maxRows).1,
        y := (clampToViewport l.x l.y l.w l.h cols maxRows).2, w := l.w, h := l.h })
    (fun l' _ => rfl))).trans ?_
  rw [foldl_adjustStep_sig]
  simpa using (stableSort_perm readingLt l).map sizeSig

/-- Every rect of the viewport adjustment's output is force-clamped. -/
theorem adjust_mem_clamped (l : List GridItemLayout) (cols maxRows : Int) :
    ∀ r ∈ adjustLayoutsToViewport l cols maxRows,
      0 ≤ r.x ∧ 0 ≤ r.y ∧ (r.w ≤ cols → r.x + r.w ≤ cols) ∧
      (r.h ≤ maxRows → r.y + r.h ≤ maxRows) := by
  intro r hr
  unfold adjustLayoutsToViewport at hr
  dsimp only at hr
  rw [List.mem_map] at hr
  obtain ⟨l', hl', rfl⟩ := hr
  exact clampToViewport_spec l'.x l'.y l'.w l'.h cols maxRows

/-- A position returned by the ring search fits (hence is in bounds). -/
theorem findBestPositionNear_fit {occ : OccupancyGrid} {tx ty w h cols maxRows : Int}
    {p : Int × Int}
    (hbn : findBestPositionNear occ tx ty w h cols maxRows = some p) :
    canFitAt occ p.1 p.2 w h = true := by
  unfold findBestPositionNear at hbn
  split_ifs at hbn with h0
  · obtain rfl : (tx, ty) = p := Option.some.inj hbn
    exact h0
  · cases hm : ((intRange 1 (max cols maxRows)).flatMap fun distance =>
        ringCandidates tx ty distance).find? (fun q =>
          !(decide (q.1 < 0) || decide (q.2 < 0) || decide (cols < q.1 + w) ||
            decide (maxRows < q.2 + h)) &&
          canFitAt occ q.1 q.2 w h) with
    | some q =>
      rw [hm] at hbn
      dsimp only at hbn
      obtain rfl : q = p := Option.some.inj hbn
      have hq := List.find?_some hm
      simp only [Bool.and_eq_true] at hq
      exact hq.2
    | none =>
      rw [hm] at hbn
      dsimp only at hbn
      unfold findFirstFitPosition at hbn
      have hq := List.find?_some hbn
      simpa using hq

theorem canFitAt_bounds {occ : OccupancyGrid} {x y w h : Int}
    (hc : canFitAt occ x y w h = true) :
    0 ≤ x ∧ 0 ≤ y ∧ x + w ≤ occ.cols ∧ y + h ≤ occ.rows := by
  have hx := (canFitAt_iff occ x y w h).mp hc
  exact ⟨hx.1, hx.2.1, hx.2.2.1, hx.2.2.2.1⟩

/-- A successful fit check bounds the widget size by the grid size. -/
theorem canFitAt_le {g : Occ} {cols maxRows x y w h : Int}
    (hc : canFitAt ⟨g, cols, maxRows⟩ x y w h = true) : w ≤ cols ∧ h ≤ maxRows := by
  obtain ⟨h1, h2, h3, h4⟩ := canFitAt_bounds hc
  have h3' : x + w ≤ cols := h3
  have h4' : y + h ≤ maxRows := h4
  exact ⟨by omega, by omega⟩

/-- Every successful position search validates both widgets somewhere on the
grid, so both sizes fit the grid. -/
theorem calculateSwapPositions_spec {layouts : List GridItemLayout}
    {sl tl : GridItemLayout} {s : String} {cols maxRows : Int}
    {p : (Int × Int) × (Int × Int)}
    (hsp : calculateSwapPositions layouts sl tl s cols maxRows = some p) :
    sl.w ≤ cols ∧ sl.h ≤ maxRows ∧ tl.w ≤ cols ∧ tl.h ≤ maxRows := by
  revert hsp
  unfold calculateSwapPositions
  dsimp only
  generalize swapBaseOcc layouts tl s cols maxRows = B
  generalize clampCoord tl.x sl.w cols = sx
  generalize clampCoord tl.y sl.h maxRows = sy
  generalize clampCoord sl.x tl.w cols = tx
  generalize clampCoord sl.y tl.h maxRows = ty
  intro hsp
  by_cases hov : zonesOverlap ⟨sx, sy, sl.w, sl.h⟩ ⟨tx, ty, tl.w, tl.h⟩ = true
  · rw [if_pos hov] at hsp
    by_cases hC1 : canFitAt ⟨B, cols, maxRows⟩ sx sy sl.w sl.h = true
    · rw [if_pos hC1] at hsp
      cases hbn : findBestPositionNear
          ⟨setRegion maxRows cols true ⟨sx, sy, sl.w, sl.h⟩ B, cols, maxRows⟩
          sl.x sl.y tl.w tl.h cols maxRows with
      | none => rw [hbn] at hsp; simp at hsp
      | some q =>
        have h1 := canFitAt_le hC1
        have h2 := canFitAt_le (findBestPositionNear_fit hbn)
        exact ⟨h1.1, h1.2, h2.1, h2.2⟩
    · rw [if_neg hC1] at hsp
      by_cases hC2 : canFitAt ⟨B, cols, maxRows⟩ tx ty tl.w tl.h = true
      · rw [if_pos hC2] at hsp
        cases hbn : findBestPositionNear
            ⟨setRegion maxRows cols true ⟨tx, ty, tl.w, tl.h⟩ B, cols, maxRows⟩
            tl.x tl.y sl.w sl.h cols maxRows with
        | none => rw [hbn] at hsp; simp at hsp
        | some q =>
          have h1 := canFitAt_le (findBestPositionNear_fit hbn)
          have h2 := canFitAt_le hC2
          exact ⟨h1.1, h1.2, h2.1, h2.2⟩
      · rw [if_neg hC2] at hsp; cases hsp
  · rw [if_neg hov] at hsp
    by_cases hB2 : (canFitAt ⟨B, cols, maxRows⟩ sx sy sl.w sl.h &&
        canFitAt ⟨setRegion maxRows cols true ⟨sx, sy, sl.w, sl.h⟩ B, cols, maxRows⟩
          tx ty tl.w tl.h) = true
    · rw [Bool.and_eq_true] at hB2
      have h1 := canFitAt_le hB2.1
      have h2 := canFitAt_le hB2.2
      exact ⟨h1.1, h1.2, h2.1, h2.2⟩
    · rw [if_neg hB2] at hsp
      cases hs0 : (if canFitAt ⟨B, cols, maxRows⟩ sx sy sl.w sl.h = true
          then some (sx, sy)
          else findBestPositionNear ⟨B, cols, maxRows⟩ tl.x tl.y sl.w sl.h
            cols maxRows) with
      | none => rw [hs0] at hsp; simp at hsp
      | some sp =>
        rw [hs0] at hsp
        dsimp only at hsp
        have h1 : sl.w ≤ cols ∧ sl.h ≤ maxRows := by
          split_ifs at hs0 with hC
          · exact canFitAt_le hC
          · exact canFitAt_le (findBestPositionNear_fit hs0)
        by_cases hC3 : canFitAt
            ⟨setRegion maxRows cols true ⟨sp.1, sp.2, sl.w, sl.h⟩ B, cols, maxRows⟩
            tx ty tl.w tl.h = true
        · have h2 := canFitAt_le hC3
          exact ⟨h1.1, h1.2, h2.1, h2.2⟩
        · rw [if_neg hC3] at hsp
          cases hbn : findBestPositionNear
              ⟨setRegion maxRows cols true ⟨sp.1, sp.2, sl.w, sl.h⟩ B, cols, maxRows⟩
              sl.x sl.y tl.w tl.h cols maxRows with
          | none => rw [hbn] at hsp; simp at hsp
          | some q =>
            have h2 := canFitAt_le (findBestPositionNear_fit hbn)
            exact ⟨h1.1, h1.2, h2.1, h2.2⟩

/-- What a successful `calculateSwap` guarantees: the output permutes the
input's id-and-size signatures, every output rect is clamped into the viewport
(when its size allows it), and both looked-up entries have grid-bounded
sizes. -/
theorem calculateSwap_spec {layouts out : List GridItemLayout} {a b : String}
    {cols maxRows : Int}
    (hsw : calculateSwap layouts a b cols maxRows = some out) :
    List.Perm (out.map sizeSig) (layouts.map sizeSig) ∧
    (∀ r ∈ out, 0 ≤ r.x ∧ 0 ≤ r.y ∧ (r.w ≤ cols → r.x + r.w ≤ cols) ∧
      (r.h ≤ maxRows → r.y + r.h ≤ maxRows)) ∧
    (∃ q, layouts.find? (fun l => decide (l.i = a)) = some q ∧
      q.w ≤ cols ∧ q.h ≤ maxRows) ∧
    (∃ q, layouts.find? (fun l => decide (l.i = b)) = some q ∧
      q.w ≤ cols ∧ q.h ≤ maxRows) := by
  unfold calculateSwap at hsw
  cases hfa : layouts.find? (fun l => decide (l.i = a)) with
  | none =>
    rw [hfa] at hsw
    cases hfb : layouts.find? (fun l => decide (l.i = b)) with
    | none => rw [hfb] at hsw; simp at hsw
    | some tl => rw [hfb] at hsw; simp at hsw
  | some sl =>
    rw [hfa] at hsw
    cases hfb : layouts.find? (fun l => decide (l.i = b)) with
    | none => rw [hfb] at hsw; simp at hsw
    | some tl =>
      rw [hfb] at hsw
      dsimp only at hsw
      cases hps : calculateSwapPositions layouts sl tl a cols maxRows with
      | none => rw [hps] at hsw; simp at hsw
      | some pq =>
        rw [hps] at hsw
        dsimp only at hsw
        unfold swapFinish at hsw
        have hout := (Option.some.inj hsw).symm
        subst hout
        have hspec := calculateSwapPositions_spec hps
        refine ⟨?_, ?_, ⟨sl, rfl, hspec.1, hspec.2.1⟩, ⟨tl, rfl, hspec.2.2.1, hspec.2.2.2⟩⟩
        · refine (adjustLayoutsToViewport_sig _ cols maxRows).trans
            (List.Perm.of_eq (map_sig_eq ?_))
          intro l _
          unfold swapMap
          split_ifs <;> rfl
        · intro r hr
          exact adjust_mem_clamped _ cols maxRows r hr

/-! ## C4 support: cell-level semantics of the occupancy grids -/

theorem zonesOverlap_false_iff (z1 z2 : GridZone) :
    zonesOverlap z1 z2 = false ↔
      (z2.x + z2.w ≤ z1.x ∨ z1.x + z1.w ≤ z2.x ∨
       z2.y + z2.h ≤ z1.y ∨ z1.y + z1.h ≤ z2.y) := by
  unfold zonesOverlap
  simp
  omega

theorem zonesOverlap_false_symm {z1 z2 : GridZone}
    (h : zonesOverlap z1 z2 = false) : zonesOverlap z2 z1 = false := by
  rw [zonesOverlap_false_iff] at h ⊢
  tauto

theorem zoneFree_symm :
    Symmetric (fun u v : GridItemLayout =>
      zonesOverlap (zoneOf u) (zoneOf v) = false) :=
  fun _ _ h => zonesOverlap_false_symm h

/-- Two zones sharing a cell overlap. -/
theorem overlap_of_cell {z1 z2 : GridZone} {r c : Int}
    (h1 : cellIn z1 r c) (h2 : cellIn z2 r c) : zonesOverlap z1 z2 = true := by
  unfold cellIn at h1 h2
  cases hov : zonesOverlap z1 z2 with
  | true => rfl
  | false =>
    rw [zonesOverlap_false_iff] at hov
    omega

/-- Two overlapping zones of positive extent share a cell. -/
theorem cell_of_overlap {z1 z2 : GridZone}
    (h : zonesOverlap z1 z2 = true) (h1w : 1 ≤ z1.w) (h1h : 1 ≤ z1.h)
    (h2w : 1 ≤ z2.w) (h2h : 1 ≤ z2.h) :
    ∃ r c, cellIn z1 r c ∧ cellIn z2 r c := by
  have hno : ¬ (z2.x + z2.w ≤ z1.x ∨ z1.x + z1.w ≤ z2.x ∨
      z2.y + z2.h ≤ z1.y ∨ z1.y + z1.h ≤ z2.y) := by
    intro hc
    rw [← zonesOverlap_false_iff] at hc
    rw [h] at hc
    cases hc
  push_neg at hno
  exact ⟨max z1.y z2.y, max z1.x z2.x, by unfold cellIn; omega, by unfold cellIn; omega⟩

theorem setRegion_sets {rows cols : Int} {z : GridZone} {g : Occ} {r c : Int}
    (hcell : cellIn z r c) (hr0 : 0 ≤ r) (hr : r < rows) (hc0 : 0 ≤ c) (hc : c < cols) :
    setRegion rows cols true z g r c = true := by
  unfold cellIn at hcell
  unfold setRegion
  rw [if_pos (by omega :
    z.y ≤ r ∧ 0 ≤ r ∧ r < min (z.y + z.h) rows ∧
    z.x ≤ c ∧ 0 ≤ c ∧ c < min (z.x + z.w) cols)]

theorem setRegion_true_mono {rows cols : Int} {z : GridZone} {g : Occ} {r c : Int}
    (h : g r c = true) : setRegion rows cols true z g r c = true := by
  unfold setRegion
  split_ifs with hc
  · rfl
  · exact h

/-- `setRegion` leaves every cell outside the zone unchanged. -/
theorem setRegion_outside {rows cols : Int} {v : Bool} {z : GridZone} {g : Occ}
    {r c : Int} (h : ¬ cellIn z r c) : setRegion rows cols v z g r c = g r c := by
  unfold cellIn at h
  unfold setRegion
  rw [if_neg (by omega)]

/-- The fold building `createOccupancyGrid` never unmarks a cell. -/
theorem occFold_true_mono {cols maxRows : Int} {exclude : Option String}
    (ls : List GridItemLayout) (g : Occ) {r c : Int} (h : g r c = true) :
    (ls.foldl (fun g l => if exclude = some l.i then g
      else setRegion maxRows cols true ⟨l.x, l.y, l.w, l.h⟩ g) g) r c = true := by
  induction ls generalizing g with
  | nil => exact h
  | cons a as ih =>
    rw [List.foldl_cons]
    apply ih
    split_ifs
    · exact h
    · exact setRegion_true_mono h

/-- Every in-bounds cell of a non-excluded rect is marked by
`createOccupancyGrid`. -/
theorem createOccupancyGrid_marks {layouts : List GridItemLayout}
    {cols maxRows : Int} {exclude : Option String} {o : GridItemLayout} {r c : Int}
    (ho : o ∈ layouts) (hex : exclude ≠ some o.i)
    (hcell : cellIn (zoneOf o) r c) (hb : inBounds cols maxRows o) :
    (createOccupancyGrid layouts cols maxRows exclude).grid r c = true := by
  unfold createOccupancyGrid
  dsimp only
  have aux : ∀ (ls : List GridItemLayout) (g : Occ), o ∈ ls →
      (ls.foldl (fun g l => if exclude = some l.i then g
        else setRegion maxRows cols true ⟨l.x, l.y, l.w, l.h⟩ g) g) r c = true := by
    intro ls
    induction ls with
    | nil => intro g hmem; cases hmem
    | cons a as ih =>
      intro g hmem
      rw [List.foldl_cons]
      rcases List.mem_cons.mp hmem with rfl | hmem2
      · apply occFold_true_mono
        rw [if_neg hex]
        refine setRegion_sets hcell ?_ ?_ ?_ ?_ <;>
          (dsimp only [cellIn, zoneOf] at hcell; unfold inBounds at hb; omega)
      · exact ih _ hmem2
  exact aux layouts _ ho

/-- Every in-bounds cell of a rect that is neither the excluded source nor
overlapping the target stays marked in the swap's base occupancy grid. -/
theorem swapBaseOcc_marks {layouts : List GridItemLayout} {tl : GridItemLayout}
    {a : String} {cols maxRows : Int} {o : GridItemLayout} {r c : Int}
    (ho : o ∈ layouts) (hex : o.i ≠ a)
    (hno : zonesOverlap (zoneOf o) (zoneOf tl) = false)
    (hb : inBounds cols maxRows o) (hcell : cellIn (zoneOf o) r c) :
    swapBaseOcc layouts tl a cols maxRows r c = true := by
  have hnotin : ¬ cellIn (zoneOf tl) r c := by
    intro hcell2
    have hov := overlap_of_cell hcell hcell2
    rw [hno] at hov
    cases hov
  unfold swapBaseOcc
  rw [setRegion_outside hnotin]
  exact createOccupancyGrid_marks ho (fun heq => hex (Option.some.inj heq).symm) hcell hb

theorem canFitAt_bounds_mk {g : Occ} {cols maxRows x y w h : Int}
    (hc : canFitAt ⟨g, cols, maxRows⟩ x y w h = true) :
    0 ≤ x ∧ 0 ≤ y ∧ x + w ≤ cols ∧ y + h ≤ maxRows := by
  obtain ⟨h1, h2, h3, h4⟩ := canFitAt_bounds hc
  exact ⟨h1, h2, h3, h4⟩

/-- A fitting placement sees only `false` cells under its footprint. -/
theorem canFitAt_free {g : Occ} {cols maxRows x y w h r c : Int}
    (hc : canFitAt ⟨g, cols, maxRows⟩ x y w h = true)
    (hcell : cellIn ⟨x, y, w, h⟩ r c) : g r c = false := by
  have hx := (canFitAt_iff ⟨g, cols, maxRows⟩ x y w h).mp hc
  dsimp only [cellIn] at hcell
  exact hx.2.2.2.2 r c hcell.1 hcell.2.1 hcell.2.2.1 hcell.2.2.2

/-- A placement that fits a grid where some zone is fully marked cannot
overlap that zone. -/
theorem no_overlap_of_fit {g : Occ} {cols maxRows x y w h : Int} {z : GridZone}
    (hc : canFitAt ⟨g, cols, maxRows⟩ x y w h = true)
    (hmark : ∀ r c, cellIn z r c → g r c = true)
    (hw : 1 ≤ w) (hh : 1 ≤ h) (hzw : 1 ≤ z.w) (hzh : 1 ≤ z.h) :
    zonesOverlap ⟨x, y, w, h⟩ z = false := by
  cases hov : zonesOverlap ⟨x, y, w, h⟩ z with
  | false => rfl
  | true =>
    obtain ⟨r, c, hc1, hc2⟩ := cell_of_overlap hov hw hh hzw hzh
    have hfree := canFitAt_free hc hc1
    have htrue := hmark r c hc2
    rw [hfree] at htrue
    cases htrue

/-- Two rects of a pairwise-disjoint layout are disjoint. -/
theorem noOverlap_pair {layouts : List GridItemLayout} (hO : noOverlap layouts)
    {u v : GridItemLayout} (hu : u ∈ layouts) (hv : v ∈ layouts) (hne : u ≠ v) :
    zonesOverlap (zoneOf u) (zoneOf v) = false :=
  List.Pairwise.forall zoneFree_symm hO hu hv hne

/-- On an in-bounds rect the viewport clamp is the identity. -/
theorem clampToViewport_id {x y w h cols maxRows : Int}
    (hb : 0 ≤ x ∧ 0 ≤ y ∧ x + w ≤ cols ∧ y + h ≤ maxRows) :
    clampToViewport x y w h cols maxRows = (x, y) := by
  unfold clampToViewport
  dsimp only
  rw [if_neg (by omega : ¬ x < 0), if_neg (by omega : ¬ y < 0),
    if_neg (by omega : ¬ cols < x + w), if_neg (by omega : ¬ maxRows < y + h)]

/-- The placement fold of `adjustLayoutsToViewport` places every widget of an
in-bounds, pairwise-disjoint list at its own position, provided the
accumulated grid is free under all of them. -/
theorem foldl_adjustStep_id (cols maxRows : Int) :
    ∀ (ws : List GridItemLayout) (g : Occ) (acc : List GridItemLayout),
      (∀ r ∈ ws, inBounds cols maxRows r ∧ 1 ≤ r.w ∧ 1 ≤ r.h) →
      ws.Pairwise (fun u v => zonesOverlap (zoneOf u) (zoneOf v) = false) →
      (∀ w' ∈ ws, ∀ r c, cellIn (zoneOf w') r c → g r c = false) →
      (ws.foldl (adjustStep cols maxRows) (g, acc)).2 = acc ++ ws := by
  intro ws
  induction ws with
  | nil => intro g acc _ _ _; simp
  | cons a as ih =>
    intro g acc hV hP hFree
    rw [List.foldl_cons]
    have hb := (hV a (List.mem_cons_self _ _)).1
    have hclamp : clampToViewport a.x a.y a.w a.h cols maxRows = (a.x, a.y) :=
      clampToViewport_id hb
    have hfit : canFitAt ⟨g, cols, maxRows⟩ a.x a.y a.w a.h = true := by
      rw [canFitAt_iff]
      refine ⟨hb.1, hb.2.1, hb.2.2.1, hb.2.2.2, ?_⟩
      intro r c hr1 hr2 hc1 hc2
      exact hFree a (List.mem_cons_self _ _) r c ⟨hr1, hr2, hc1, hc2⟩
    have hstep : adjustStep cols maxRows (g, acc) a =
        (setRegion maxRows cols true ⟨a.x, a.y, a.w, a.h⟩ g, acc ++ [a]) := by
      unfold adjustStep
      dsimp only
      rw [hclamp]
      dsimp only
      rw [if_pos hfit]
    rw [hstep]
    have hP2 := List.pairwise_cons.mp hP
    rw [ih _ (acc ++ [a]) (fun r hr => hV r (List.mem_cons_of_mem _ hr)) hP2.2 ?_]
    · simp
    · intro w' hw' r c hcell
      rw [setRegion_outside ?_]
      · exact hFree w' (List.mem_cons_of_mem _ hw') r c hcell
      · intro hcell2
        have hcell2a : cellIn (zoneOf a) r c := hcell2
        have hov := overlap_of_cell hcell2a hcell
        rw [hP2.1 w' hw'] at hov
        cases hov

/-- On an in-bounds, pairwise-disjoint layout the whole viewport adjustment
pass just reorders the widgets into reading order. -/
theorem adjustLayoutsToViewport_of_valid {layouts : List GridItemLayout}
    {cols maxRows : Int}
    (hV : ∀ r ∈ layouts, inBounds cols maxRows r ∧ 1 ≤ r.w ∧ 1 ≤ r.h)
    (hO : noOverlap layouts) :
    adjustLayoutsToViewport layouts cols maxRows = stableSort readingLt layouts := by
  unfold adjustLayoutsToViewport
  dsimp only
  have hperm := stableSort_perm readingLt layouts
  have hVs : ∀ r ∈ stableSort readingLt layouts,
      inBounds cols maxRows r ∧ 1 ≤ r.w ∧ 1 ≤ r.h :=
    fun r hr => hV r (hperm.subset hr)
  have hPs : (stableSort readingLt layouts).Pairwise
      (fun u v => zonesOverlap (zoneOf u) (zoneOf v) = false) :=
    (List.Perm.pairwise_iff (fun h => zonesOverlap_false_symm h) hperm).mpr hO
  rw [foldl_adjustStep_id cols maxRows _ _ [] hVs hPs (fun w' _ r c _ => rfl),
    List.nil_append]
  refine (List.map_congr_left ?_).trans (List.map_id _)
  intro l hl
  rw [clampToViewport_id (hVs l hl).1]
  rfl

/-- Assembling the two `canFitAt` validations (in either placement order) into
bounds and disjointness facts for the pair of new positions. -/
theorem swapPositions_assemble {layouts : List GridItemLayout}
    {sl tl : GridItemLayout} {a : String} {cols maxRows : Int} {S T : Int × Int}
    (hV : ∀ r ∈ layouts, inBounds cols maxRows r ∧ 1 ≤ r.w ∧ 1 ≤ r.h)
    (hO : noOverlap layouts)
    (hsl : sl ∈ layouts) (htl : tl ∈ layouts)
    (horder :
      (canFitAt ⟨swapBaseOcc layouts tl a cols maxRows, cols, maxRows⟩
          S.1 S.2 sl.w sl.h = true ∧
       canFitAt ⟨setRegion maxRows cols true ⟨S.1, S.2, sl.w, sl.h⟩
          (swapBaseOcc layouts tl a cols maxRows), cols, maxRows⟩
          T.1 T.2 tl.w tl.h = true) ∨
      (canFitAt ⟨swapBaseOcc layouts tl a cols maxRows, cols, maxRows⟩
          T.1 T.2 tl.w tl.h = true ∧
       canFitAt ⟨setRegion maxRows cols true ⟨T.1, T.2, tl.w, tl.h⟩
          (swapBaseOcc layouts tl a cols maxRows), cols, maxRows⟩
          S.1 S.2 sl.w sl.h = true)) :
    (0 ≤ S.1 ∧ 0 ≤ S.2 ∧ S.1 + sl.w ≤ cols ∧ S.2 + sl.h ≤ maxRows) ∧
    (0 ≤ T.1 ∧ 0 ≤ T.2 ∧ T.1 + tl.w ≤ cols ∧ T.2 + tl.h ≤ maxRows) ∧
    zonesOverlap ⟨S.1, S.2, sl.w, sl.h⟩ ⟨T.1, T.2, tl.w, tl.h⟩ = false ∧
    (∀ o ∈ layouts, o.i ≠ a → o ≠ tl →
      zonesOverlap ⟨S.1, S.2, sl.w, sl.h⟩ (zoneOf o) = false ∧
      zonesOverlap ⟨T.1, T.2, tl.w, tl.h⟩ (zoneOf o) = false) := by
  obtain ⟨hbsl, hsw1, hsh1⟩ := hV sl hsl
  obtain ⟨hbtl, htw1, hth1⟩ := hV tl htl
  have hmark : ∀ o ∈ layouts, o.i ≠ a → o ≠ tl → ∀ r c, cellIn (zoneOf o) r c →
      swapBaseOcc layouts tl a cols maxRows r c = true := by
    intro o ho hoa hotl r c hcell
    exact swapBaseOcc_marks ho hoa (noOverlap_pair hO ho htl hotl) (hV o ho).1 hcell
  rcases horder with ⟨h1, h2⟩ | ⟨h1, h2⟩
  · have hSb := canFitAt_bounds_mk h1
    have hTb := canFitAt_bounds_mk h2
    refine ⟨hSb, hTb, ?_, ?_⟩
    · refine zonesOverlap_false_symm (no_overlap_of_fit h2 ?_ htw1 hth1 hsw1 hsh1)
      intro r c hcell
      refine setRegion_sets hcell ?_ ?_ ?_ ?_ <;>
        (dsimp only [cellIn] at hcell; omega)
    · intro o ho hoa hotl
      obtain ⟨-, how1, hoh1⟩ := hV o ho
      have hmo := hmark o ho hoa hotl
      refine ⟨no_overlap_of_fit h1 hmo hsw1 hsh1 how1 hoh1, ?_⟩
      refine no_overlap_of_fit h2 ?_ htw1 hth1 how1 hoh1
      intro r c hcell
      exact setRegion_true_mono (hmo r c hcell)
  · have hTb := canFitAt_bounds_mk h1
    have hSb := canFitAt_bounds_mk h2
    refine ⟨hSb, hTb, ?_, ?_⟩
    · refine no_overlap_of_fit h2 ?_ hsw1 hsh1 htw1 hth1
      intro r c hcell
      refine setRegion_sets hcell ?_ ?_ ?_ ?_ <;>
        (dsimp only [cellIn] at hcell; omega)
    · intro o ho hoa hotl
      obtain ⟨-, how1, hoh1⟩ := hV o ho
      have hmo := hmark o ho hoa hotl
      refine ⟨?_, no_overlap_of_fit h1 hmo htw1 hth1 how1 hoh1⟩
      refine no_overlap_of_fit h2 ?_ hsw1 hsh1 how1 hoh1
      intro r c hcell
      exact setRegion_true_mono (hmo r c hcell)

/-- On a valid layout, every success of the position search validates both new
positions: in bounds, mutually disjoint, and clear of every other widget. -/
theorem calculateSwapPositions_sound {layouts : List GridItemLayout}
    {sl tl : GridItemLayout} {a : String} {cols maxRows : Int}
    {p : (Int × Int) × (Int × Int)}
    (hV : ∀ r ∈ layouts, inBounds cols maxRows r ∧ 1 ≤ r.w ∧ 1 ≤ r.h)
    (hO : noOverlap layouts)
    (hsl : sl ∈ layouts) (htl : tl ∈ layouts)
    (hsp : calculateSwapPositions layouts sl tl a cols maxRows = some p) :
    (0 ≤ p.1.1 ∧ 0 ≤ p.1.2 ∧ p.1.1 + sl.w ≤ cols ∧ p.1.2 + sl.h ≤ maxRows) ∧
    (0 ≤ p.2.1 ∧ 0 ≤ p.2.2 ∧ p.2.1 + tl.w ≤ cols ∧ p.2.2 + tl.h ≤ maxRows) ∧
    zonesOverlap ⟨p.1.1, p.1.2, sl.w, sl.h⟩ ⟨p.2.1, p.2.2, tl.w, tl.h⟩ = false ∧
    (∀ o ∈ layouts, o.i ≠ a → o ≠ tl →
      zonesOverlap ⟨p.1.1, p.1.2, sl.w, sl.h⟩ (zoneOf o) = false ∧
      zonesOverlap ⟨p.2.1, p.2.2, tl.w, tl.h⟩ (zoneOf o) = false) := by
  have horder :
      (canFitAt ⟨swapBaseOcc layouts tl a cols maxRows, cols, maxRows⟩
          p.1.1 p.1.2 sl.w sl.h = true ∧
       canFitAt ⟨setRegion maxRows cols true ⟨p.1.1, p.1.2, sl.w, sl.h⟩
          (swapBaseOcc layouts tl a cols maxRows), cols, maxRows⟩
          p.2.1 p.2.2 tl.w tl.h = true) ∨
      (canFitAt ⟨swapBaseOcc layouts tl a cols maxRows, cols, maxRows⟩
          p.2.1 p.2.2 tl.w tl.h = true ∧
       canFitAt ⟨setRegion maxRows cols true ⟨p.2.1, p.2.2, tl.w, tl.h⟩
          (swapBaseOcc layouts tl a cols maxRows), cols, maxRows⟩
          p.1.1 p.1.2 sl.w sl.h = true) := by
    revert hsp
    unfold calculateSwapPositions
    dsimp only
    generalize hBeq : swapBaseOcc layouts tl a cols maxRows = B
    generalize clampCoord tl.x sl.w cols = sx
    generalize clampCoord tl.y sl.h maxRows = sy
    generalize clampCoord sl.x tl.w cols = tx
    generalize clampCoord sl.y tl.h maxRows = ty
    intro hsp
    by_cases hov : zonesOverlap ⟨sx, sy, sl.w, sl.h⟩ ⟨tx, ty, tl.w, tl.h⟩ = true
    · rw [if_pos hov] at hsp
      by_cases hC1 : canFitAt ⟨B, cols, maxRows⟩ sx sy sl.w sl.h = true
      · rw [if_pos hC1] at hsp
        cases hbn : findBestPositionNear
            ⟨setRegion maxRows cols true ⟨sx, sy, sl.w, sl.h⟩ B, cols, maxRows⟩
            sl.x sl.y tl.w tl.h cols maxRows with
        | none => rw [hbn] at hsp; simp at hsp
        | some q =>
          rw [hbn] at hsp
          dsimp only at hsp
          obtain rfl : ((sx, sy), q) = p := Option.some.inj hsp
          exact Or.inl ⟨hC1, findBestPositionNear_fit hbn⟩
      · rw [if_neg hC1] at hsp
        by_cases hC2 : canFitAt ⟨B, cols, maxRows⟩ tx ty tl.w tl.h = true
        · rw [if_pos hC2] at hsp
          cases hbn : findBestPositionNear
              ⟨setRegion maxRows cols true ⟨tx, ty, tl.w, tl.h⟩ B, cols, maxRows⟩
              tl.x tl.y sl.w sl.h cols maxRows with
          | none => rw [hbn] at hsp; simp at hsp
          | some q =>
            rw [hbn] at hsp
            dsimp only at hsp
            obtain rfl : (q, (tx, ty)) = p := Option.some.inj hsp
            exact Or.inr ⟨hC2, findBestPositionNear_fit hbn⟩
        · rw [if_neg hC2] at hsp; cases hsp
    · rw [if_neg hov] at hsp
      by_cases hB2 : (canFitAt ⟨B, cols, maxRows⟩ sx sy sl.w sl.h &&
          canFitAt ⟨setRegion maxRows cols true ⟨sx, sy, sl.w, sl.h⟩ B, cols, maxRows⟩
            tx ty tl.w tl.h) = true
      · rw [if_pos hB2] at hsp
        rw [Bool.and_eq_true] at hB2
        obtain rfl : ((sx, sy), (tx, ty)) = p := Option.some.inj hsp
        exact Or.inl ⟨hB2.1, hB2.2⟩
      · rw [if_neg hB2] at hsp
        cases hs0 : (if canFitAt ⟨B, cols, maxRows⟩ sx sy sl.w sl.h = true
            then some (sx, sy)
            else findBestPositionNear ⟨B, cols, maxRows⟩ tl.x tl.y sl.w sl.h
              cols maxRows) with
        | none => rw [hs0] at hsp; simp at hsp
        | some sp =>
          rw [hs0] at hsp
          dsimp only at hsp
          have hSfit : canFitAt ⟨B, cols, maxRows⟩ sp.1 sp.2 sl.w sl.h = true := by
            split_ifs at hs0 with hC
            · obtain rfl : (sx, sy) = sp := Option.some.inj hs0
              exact hC
            · exact findBestPositionNear_fit hs0
          by_cases hC3 : canFitAt
              ⟨setRegion maxRows cols true ⟨sp.1, sp.2, sl.w, sl.h⟩ B, cols, maxRows⟩
              tx ty tl.w tl.h = true
          · rw [if_pos hC3] at hsp
            obtain rfl : (sp, (tx, ty)) = p := Option.some.inj hsp
            exact Or.inl ⟨hSfit, hC3⟩
          · rw [if_neg hC3] at hsp
            cases hbn : findBestPositionNear
                ⟨setRegion maxRows cols true ⟨sp.1, sp.2, sl.w, sl.h⟩ B, cols, maxRows⟩
                sl.x sl.y tl.w tl.h cols maxRows with
            | none => rw [hbn] at hsp; simp at hsp
            | some q =>
              rw [hbn] at hsp
              dsimp only at hsp
              obtain rfl : (sp, q) = p := Option.some.inj hsp
              exact Or.inl ⟨hSfit, findBestPositionNear_fit hbn⟩
  exact swapPositions_assemble hV hO hsl htl horder

theorem swapMap_cases (a b : String) (sx sy tx ty : Int) (u : GridItemLayout) :
    (u.i = a ∧ swapMap a b sx sy tx ty u = { u with x := sx, y := sy }) ∨
    (u.i ≠ a ∧ u.i = b ∧ swapMap a b sx sy tx ty u = { u with x := tx, y := ty }) ∨
    (u.i ≠ a ∧ u.i ≠ b ∧ swapMap a b sx sy tx ty u = u) := by
  unfold swapMap
  split_ifs with h1 h2
  · exact Or.inl ⟨h1, rfl⟩
  · exact Or.inr (Or.inl ⟨h1, h2, rfl⟩)
  · exact Or.inr (Or.inr ⟨h1, h2, rfl⟩)

theorem swapMap_id_size (a b : String) (sx sy tx ty : Int) (u : GridItemLayout) :
    (swapMap a b sx sy tx ty u).i = u.i ∧ (swapMap a b sx sy tx ty u).w = u.w ∧
    (swapMap a b sx sy tx ty u).h = u.h := by
  unfold swapMap
  split_ifs <;> exact ⟨rfl, rfl, rfl⟩

/-- On a valid layout with distinct ids, the repositioned list built from a
sound pair of swap positions is again valid. -/
theorem swapped_list_valid {layouts : List GridItemLayout}
    {sl tl : GridItemLayout} {a b : String} {cols maxRows : Int} {S T : Int × Int}
    (hV : ∀ r ∈ layouts, inBounds cols maxRows r ∧ 1 ≤ r.w ∧ 1 ≤ r.h)
    (hO : noOverlap layouts)
    (hN : (layouts.map fun r => r.i).Nodup)
    (hsl : sl ∈ layouts) (htl : tl ∈ layouts)
    (hsli : sl.i = a) (htli : tl.i = b)
    (hSb : 0 ≤ S.1 ∧ 0 ≤ S.2 ∧ S.1 + sl.w ≤ cols ∧ S.2 + sl.h ≤ maxRows)
    (hTb : 0 ≤ T.1 ∧ 0 ≤ T.2 ∧ T.1 + tl.w ≤ cols ∧ T.2 + tl.h ≤ maxRows)
    (hST : zonesOverlap ⟨S.1, S.2, sl.w, sl.h⟩ ⟨T.1, T.2, tl.w, tl.h⟩ = false)
    (hOthers : ∀ o ∈ layouts, o.i ≠ a → o ≠ tl →
      zonesOverlap ⟨S.1, S.2, sl.w, sl.h⟩ (zoneOf o) = false ∧
      zonesOverlap ⟨T.1, T.2, tl.w, tl.h⟩ (zoneOf o) = false) :
    (∀ r ∈ layouts.map (swapMap a b S.1 S.2 T.1 T.2),
      inBounds cols maxRows r ∧ 1 ≤ r.w ∧ 1 ≤ r.h) ∧
    noOverlap (layouts.map (swapMap a b S.1 S.2 T.1 T.2)) ∧
    ((layouts.map (swapMap a b S.1 S.2 T.1 T.2)).map fun r => r.i).Nodup ∧
    (∀ r' ∈ layouts.map (swapMap a b S.1 S.2 T.1 T.2),
      ∃ r ∈ layouts, r.i = r'.i ∧ r'.w = r.w ∧ r'.h = r.h) := by
  have hids : layouts.Pairwise fun u v => u.i ≠ v.i :=
    List.pairwise_map.mp hN
  have huniq : ∀ {u : GridItemLayout}, u ∈ layouts → u.i = a → u = sl :=
    fun hu hui => unique_by_id hN hu hsl (by rw [hui, hsli])
  have huniqb : ∀ {u : GridItemLayout}, u ∈ layouts → u.i = b → u = tl :=
    fun hu hui => unique_by_id hN hu htl (by rw [hui, htli])
  refine ⟨?_, ?_, ?_, ?_⟩
  · intro r hr
    obtain ⟨u, hu, rfl⟩ := List.mem_map.mp hr
    rcases swapMap_cases a b S.1 S.2 T.1 T.2 u with ⟨hia, heq⟩ | ⟨-, hib, heq⟩ |
        ⟨-, -, heq⟩
    · obtain rfl : u = sl := huniq hu hia
      rw [heq]
      exact ⟨⟨hSb.1, hSb.2.1, hSb.2.2.1, hSb.2.2.2⟩, (hV u hu).2.1, (hV u hu).2.2⟩
    · obtain rfl : u = tl := huniqb hu hib
      rw [heq]
      exact ⟨⟨hTb.1, hTb.2.1, hTb.2.2.1, hTb.2.2.2⟩, (hV u hu).2.1, (hV u hu).2.2⟩
    · rw [heq]
      exact hV u hu
  · refine List.pairwise_map.mpr (List.Pairwise.imp_of_mem ?_ (hids.and hO))
    rintro u v hu hv ⟨hne, hdisj⟩
    have hvtl : v.i ≠ b → v ≠ tl := fun hvb hveq => hvb (hveq ▸ htli)
    have hutl : u.i ≠ b → u ≠ tl := fun hub hueq => hub (hueq ▸ htli)
    rcases swapMap_cases a b S.1 S.2 T.1 T.2 u with ⟨hua, hequ⟩ | ⟨huna, hub, hequ⟩ |
        ⟨huna, hunb, hequ⟩ <;>
      rcases swapMap_cases a b S.1 S.2 T.1 T.2 v with ⟨hva, heqv⟩ | ⟨hvna, hvb, heqv⟩ |
          ⟨hvna, hvnb, heqv⟩ <;>
      rw [hequ, heqv]
    · exact absurd (hua.trans hva.symm) hne
    · obtain rfl : u = sl := huniq hu hua
      obtain rfl : v = tl := huniqb hv hvb
      exact hST
    · obtain rfl : u = sl := huniq hu hua
      exact (hOthers v hv hvna (hvtl hvnb)).1
    · obtain rfl : u = tl := huniqb hu hub
      obtain rfl : v = sl := huniq hv hva
      exact zonesOverlap_false_symm hST
    · exact absurd (hub.trans hvb.symm) hne
    · obtain rfl : u = tl := huniqb hu hub
      exact (hOthers v hv hvna (hvtl hvnb)).2
    · obtain rfl : v = sl := huniq hv hva
      exact zonesOverlap_false_symm (hOthers u hu huna (hutl hunb)).1
    · obtain rfl : v = tl := huniqb hv hvb
      exact zonesOverlap_false_symm (hOthers u hu huna (hutl hunb)).2
    · exact hdisj
  · rw [map_ids_eq (fun l _ => (swapMap_id_size a b S.1 S.2 T.1 T.2 l).1)]
    exact hN
  · intro r' hr'
    obtain ⟨u, hu, rfl⟩ := List.mem_map.mp hr'
    obtain ⟨hi, hw, hh⟩ := swapMap_id_size a b S.1 S.2 T.1 T.2 u
    exact ⟨u, hu, hi.symm, hw, hh⟩

/-- A successful `calculateSwap` on a valid layout with distinct ids returns a
valid layout with the same ids and, per id, the same sizes. -/
theorem calculateSwap_valid {layouts out : List GridItemLayout} {a b : String}
    {cols maxRows : Int}
    (hV : ∀ r ∈ layouts, inBounds cols maxRows r ∧ 1 ≤ r.w ∧ 1 ≤ r.h)
    (hO : noOverlap layouts)
    (hN : (layouts.map fun r => r.i).Nodup)
    (hsw : calculateSwap layouts a b cols maxRows = some out) :
    (∀ r ∈ out, inBounds cols maxRows r ∧ 1 ≤ r.w ∧ 1 ≤ r.h) ∧
    noOverlap out ∧ ((out.map fun r => r.i).Nodup) ∧
    (∀ r' ∈ out, ∃ r ∈ layouts, r.i = r'.i ∧ r'.w = r.w ∧ r'.h = r.h) := by
  unfold calculateSwap at hsw
  cases hfa : layouts.find? (fun l => decide (l.i = a)) with
  | none =>
    rw [hfa] at hsw
    cases hfb : layouts.find? (fun l => decide (l.i = b)) with
    | none => rw [hfb] at hsw; simp at hsw
    | some tl => rw [hfb] at hsw; simp at hsw
  | some sl =>
    rw [hfa] at hsw
    cases hfb : layouts.find? (fun l => decide (l.i = b)) with
    | none => rw [hfb] at hsw; simp at hsw
    | some tl =>
      rw [hfb] at hsw
      dsimp only at hsw
      cases hps : calculateSwapPositions layouts sl tl a cols maxRows with
      | none => rw [hps] at hsw; simp at hsw
      | some pq =>
        rw [hps] at hsw
        dsimp only at hsw
        unfold swapFinish at hsw
        obtain rfl := (Option.some.inj hsw).symm
        have hslmem : sl ∈ layouts := List.mem_of_find?_eq_some hfa
        have htlmem : tl ∈ layouts := List.mem_of_find?_eq_some hfb
        have hsli : sl.i = a := by simpa using List.find?_some hfa
        have htli : tl.i = b := by simpa using List.find?_some hfb
        obtain ⟨hSb, hTb, hST, hOthers⟩ :=
          calculateSwapPositions_sound hV hO hslmem htlmem hps
        obtain ⟨hMV, hMO, hMN, hMsz⟩ := swapped_list_valid hV hO hN hslmem htlmem
          hsli htli hSb hTb hST hOthers
        rw [adjustLayoutsToViewport_of_valid hMV hMO]
        have hperm := stableSort_perm readingLt
          (layouts.map (swapMap a b pq.1.1 pq.1.2 pq.2.1 pq.2.2))
        refine ⟨fun r hr => hMV r (hperm.subset hr), ?_, ?_, fun r' hr' =>
          hMsz r' (hperm.subset hr')⟩
        · exact (List.Perm.pairwise_iff (fun h => zonesOverlap_false_symm h)
            hperm).mpr hMO
        · exact ((hperm.map fun r => r.i).nodup_iff).mpr hMN

/-- **C4**: on a layout satisfying the spec's settled-rect invariant
(in bounds, positive sizes, no two rects overlapping, distinct ids), if
swapping the rects with ids `a ≠ b` succeeds and swapping them again in the
resulting layout also succeeds, then in the final layout the rects of ids `a`
and `b` lie fully within bounds and occupy disjoint, non-overlapping cell
ranges, and every rect of both intermediate and final layouts keeps the width
and height of the input rect carrying its id. -/
theorem swap_round_trip (L L1 L2 : List GridItemLayout) (a b : String)
    (cols maxRows : Int)
    (hV : ∀ r ∈ L, inBounds cols maxRows r ∧ 1 ≤ r.w ∧ 1 ≤ r.h)
    (hO : noOverlap L)
    (hN : (L.map fun r => r.i).Nodup)
    (hab : a ≠ b)
    (h1 : calculateSwap L a b cols maxRows = some L1)
    (h2 : calculateSwap L1 a b cols maxRows = some L2) :
    (∀ rA ∈ L2, ∀ rB ∈ L2, rA.i = a → rB.i = b →
      inBounds cols maxRows rA ∧ inBounds cols maxRows rB ∧
      zonesOverlap (zoneOf rA) (zoneOf rB) = false) ∧
    (∀ r' ∈ L1, ∃ r ∈ L, r.i = r'.i ∧ r'.w = r.w ∧ r'.h = r.h) ∧
    (∀ r' ∈ L2, ∃ r ∈ L, r.i = r'.i ∧ r'.w = r.w ∧ r'.h = r.h) := by
  obtain ⟨hV1, hO1, hN1, hsz1⟩ := calculateSwap_valid hV hO hN h1
  obtain ⟨hV2, hO2, hN2, hsz2⟩ := calculateSwap_valid hV1 hO1 hN1 h2
  refine ⟨?_, hsz1, ?_⟩
  · intro rA hA rB hB hia hib
    have hne : rA ≠ rB := by
      intro heq
      apply hab
      rw [← hia, heq, hib]
    exact ⟨(hV2 rA hA).1, (hV2 rB hB).1,
      List.Pairwise.forall zoneFree_symm hO2 hA hB hne⟩
  · intro r' hr'
    obtain ⟨r₁, hr₁, hi, hw, hh⟩ := hsz2 r' hr'
    obtain ⟨r, hr, hi2, hw2, hh2⟩ := hsz1 r₁ hr₁
    exact ⟨r, hr, hi2.trans hi, hw.trans hw2, hh.trans hh2⟩

/-- **C4 witness**: the concrete valid double swap of `A(0,0,2,2)` and
`B(2,0,2,2)` on a `4 × 2` grid, with the round-trip theorem's conclusion
instantiated on it. -/
theorem swap_round_trip_witness :
    (∀ r ∈ ([⟨"A", 0, 0, 2, 2⟩, ⟨"B", 2, 0, 2, 2⟩] : List GridItemLayout),
      inBounds 4 2 r ∧ 1 ≤ r.w ∧ 1 ≤ r.h) ∧
    noOverlap [⟨"A", 0, 0, 2, 2⟩, ⟨"B", 2, 0, 2, 2⟩] ∧
    (([⟨"A", 0, 0, 2, 2⟩, ⟨"B", 2, 0, 2, 2⟩] :
        List GridItemLayout).map fun r => r.i).Nodup ∧
    "A" ≠ "B" ∧
    calculateSwap [⟨"A", 0, 0, 2, 2⟩, ⟨"B", 2, 0, 2, 2⟩] "A" "B" 4 2 =
      some [⟨"B", 0, 0, 2, 2⟩, ⟨"A", 2, 0, 2, 2⟩] ∧
    calculateSwap [⟨"B", 0, 0, 2, 2⟩, ⟨"A", 2, 0, 2, 2⟩] "A" "B" 4 2 =
      some [⟨"A", 0, 0, 2, 2⟩, ⟨"B", 2, 0, 2, 2⟩] ∧
    (∀ rA ∈ ([⟨"A", 0, 0, 2, 2⟩, ⟨"B", 2, 0, 2, 2⟩] : List GridItemLayout),
      ∀ rB ∈ ([⟨"A", 0, 0, 2, 2⟩, ⟨"B", 2, 0, 2, 2⟩] : List GridItemLayout),
      rA.i = "A" → rB.i = "B" →
      inBounds 4 2 rA ∧ inBounds 4 2 rB ∧
      zonesOverlap (zoneOf rA) (zoneOf rB) = false) :=
  ⟨by decide, by decide, by decide, by decide, by decide, by decide,
   (swap_round_trip [⟨"A", 0, 0, 2, 2⟩, ⟨"B", 2, 0, 2, 2⟩]
      [⟨"B", 0, 0, 2, 2⟩, ⟨"A", 2, 0, 2, 2⟩] [⟨"A", 0, 0, 2, 2⟩, ⟨"B", 2, 0, 2, 2⟩]
      "A" "B" 4 2 (by decide) (by decide) (by decide) (by decide) (by decide)
      (by decide)).1⟩

/-- **C9**: when no widget (other than the excluded id) overlaps the target
zone, `calculatePush` succeeds and returns the input layout unchanged with
`pushedWidgets = []`. -/
theorem calculatePush_no_conflict_identity (layouts : List GridItemLayout)
    (targetX targetY targetW targetH cols maxRows : Int) (excludeId : Option String)
    (h : ∀ l ∈ layouts, excludeId ≠ some l.i →
      zonesOverlap (zoneOf l) ⟨targetX, targetY, targetW, targetH⟩ = false) :
    calculatePush layouts targetX targetY targetW targetH cols maxRows excludeId =
      { canPush := true, newLayouts := layouts, pushedWidgets := [] } := by
  have hfilter : (layouts.filter fun l =>
      decide (excludeId ≠ some l.i) &&
        zonesOverlap (zoneOf l) ⟨targetX, targetY, targetW, targetH⟩) = [] := by
    rw [List.filter_eq_nil_iff]
    intro l hl
    by_cases hex : excludeId = some l.i
    · simp [hex]
    · simp [hex, h l hl hex]
  unfold calculatePush
  simp only []
  rw [hfilter]
  rfl

/-- **C9 witness**: a single widget far from the target zone. -/
theorem calculatePush_no_conflict_identity_witness :
    calculatePush [⟨"A", 0, 0, 2, 2⟩] 5 5 2 2 12 10 none =
      { canPush := true, newLayouts := [⟨"A", 0, 0, 2, 2⟩], pushedWidgets := [] } :=
  calculatePush_no_conflict_identity [⟨"A", 0, 0, 2, 2⟩] 5 5 2 2 12 10 none
    (by decide)

/-! ## C5: failed pushes are all-or-nothing -/

/-- **C5**: if, while processing the widgets overlapping the target zone, some
widget cannot be relocated in any of the four trial directions (i.e. the push
loop fails), then `calculatePush` returns `canPush = false`, the *input* layout
(discarding relocations already performed in the same call), and an empty
`pushedWidgets` list. -/
theorem calculatePush_failure_all_or_nothing (layouts : List GridItemLayout)
    (targetX targetY targetW targetH cols maxRows : Int) (excludeId : Option String)
    (h : pushLoop
        (layouts.filter fun l =>
          decide (excludeId ≠ some l.i) &&
            zonesOverlap (zoneOf l) ⟨targetX, targetY, targetW, targetH⟩)
        layouts [] ⟨targetX, targetY, targetW, targetH⟩ targetW targetH
        cols maxRows excludeId = none) :
    calculatePush layouts targetX targetY targetW targetH cols maxRows excludeId =
      { canPush := false, newLayouts := layouts, pushedWidgets := [] } := by
  unfold calculatePush
  by_cases hemp : (layouts.filter fun l =>
      decide (excludeId ≠ some l.i) &&
        zonesOverlap (zoneOf l) ⟨targetX, targetY, targetW, targetH⟩).isEmpty
  · rw [List.isEmpty_iff] at hemp
    rw [hemp] at h
    simp [pushLoop] at h
  · simp only [hemp, Bool.false_eq_true, if_false, h]

/-- **C5 witness**: one widget filling a `2 × 2` grid cannot be pushed in any
direction, and the failed push leaves the layout untouched. -/
theorem calculatePush_failure_all_or_nothing_witness :
    calculatePush [⟨"F", 0, 0, 2, 2⟩] 0 0 2 2 2 2 none =
      { canPush := false, newLayouts := [⟨"F", 0, 0, 2, 2⟩], pushedWidgets := [] } :=
  calculatePush_failure_all_or_nothing [⟨"F", 0, 0, 2, 2⟩] 0 0 2 2 2 2 none
    (by decide)

end GridHelpers
